import Mathlib

/-!
Verification development for a Vulkan compute backend of a tensor library
(source: ggml-vulkan.cpp).  The definitions below are a shallow embedding of
the matmul planning logic, the command recording of `ggml_vk_matmul`, the
pipeline/descriptor-set bookkeeping, the buffer pool, the pinned-memory
registry, the 2-D transfer routines and the operator dispatcher.  The
theorems check the natural-language specification of the module against
these definitions.
-/

namespace GgmlVulkan

/-- Translation of the C macro CEIL_DIV(M, N) = (M + N - 1) / N. -/
def CEIL_DIV (m n : Nat) : Nat := (m + n - 1) / n

/-- Translation of ggml_vk_align_size: round width up to a multiple of align. -/
def ggml_vk_align_size (width align : Nat) : Nat := CEIL_DIV width align * align

/-- Translation of ggml_vk_guess_split_k (the VK_DEBUG logging is elided). -/
def ggml_vk_guess_split_k (m n k : Nat) : Nat :=
  if 128 < k ∧ (m < 128 ∨ n < 128) then 4 else 1

/-- Embedding of the vk_pipeline record: the constant data a pipeline carries
after ggml_vk_create_pipeline (name = shader path, storage-buffer binding
count, push-constant byte size, work-group denominators, tile alignment).
Device handles (layouts, pools, the pipeline object) are not modelled. -/
structure VkPipeline where
  name : String
  parameterCount : Nat
  pushConstantSize : Nat
  wgDenoms : Nat × Nat × Nat
  align : Nat
deriving DecidableEq

/-- Pipeline constants as created in ggml_vk_init (7 * sizeof(int) = 28). -/
def vk_pipeline_matmul_f32_l : VkPipeline :=
  ⟨"vk_shaders/matmul_f32.spv", 3, 28, (128, 128, 1), 128⟩

def vk_pipeline_matmul_f32_m : VkPipeline :=
  ⟨"vk_shaders/matmul_f32.spv", 3, 28, (64, 64, 1), 64⟩

def vk_pipeline_matmul_f32_s : VkPipeline :=
  ⟨"vk_shaders/matmul_f32.spv", 3, 28, (32, 32, 1), 32⟩

def vk_pipeline_matmul_f32_aligned_l : VkPipeline :=
  ⟨"vk_shaders/matmul_f32_aligned.spv", 3, 28, (128, 128, 1), 128⟩

def vk_pipeline_matmul_f32_aligned_m : VkPipeline :=
  ⟨"vk_shaders/matmul_f32_aligned.spv", 3, 28, (64, 64, 1), 64⟩

def vk_pipeline_matmul_f32_aligned_s : VkPipeline :=
  ⟨"vk_shaders/matmul_f32_aligned.spv", 3, 28, (32, 32, 1), 32⟩

def vk_pipeline_matmul_f16_l : VkPipeline :=
  ⟨"vk_shaders/matmul_f16.spv", 3, 28, (128, 128, 1), 128⟩

def vk_pipeline_matmul_f16_m : VkPipeline :=
  ⟨"vk_shaders/matmul_f16.spv", 3, 28, (64, 64, 1), 64⟩

def vk_pipeline_matmul_f16_s : VkPipeline :=
  ⟨"vk_shaders/matmul_f16.spv", 3, 28, (32, 32, 1), 32⟩

def vk_pipeline_matmul_f16_aligned_l : VkPipeline :=
  ⟨"vk_shaders/matmul_f16_aligned.spv", 3, 28, (128, 128, 1), 128⟩

def vk_pipeline_matmul_f16_aligned_m : VkPipeline :=
  ⟨"vk_shaders/matmul_f16_aligned.spv", 3, 28, (64, 64, 1), 64⟩

def vk_pipeline_matmul_f16_aligned_s : VkPipeline :=
  ⟨"vk_shaders/matmul_f16_aligned.spv", 3, 28, (32, 32, 1), 32⟩

def vk_pipeline_matmul_f16_f32_l : VkPipeline :=
  ⟨"vk_shaders/matmul_f16_f32.spv", 3, 28, (128, 128, 1), 128⟩

def vk_pipeline_matmul_f16_f32_m : VkPipeline :=
  ⟨"vk_shaders/matmul_f16_f32.spv", 3, 28, (64, 64, 1), 64⟩

def vk_pipeline_matmul_f16_f32_s : VkPipeline :=
  ⟨"vk_shaders/matmul_f16_f32.spv", 3, 28, (32, 32, 1), 32⟩

def vk_pipeline_matmul_f16_f32_aligned_l : VkPipeline :=
  ⟨"vk_shaders/matmul_f16_f32_aligned.spv", 3, 28, (128, 128, 1), 128⟩

def vk_pipeline_matmul_f16_f32_aligned_m : VkPipeline :=
  ⟨"vk_shaders/matmul_f16_f32_aligned.spv", 3, 28, (64, 64, 1), 64⟩

def vk_pipeline_matmul_f16_f32_aligned_s : VkPipeline :=
  ⟨"vk_shaders/matmul_f16_f32_aligned.spv", 3, 28, (32, 32, 1), 32⟩

def vk_pipeline_matmul_split_k_reduce : VkPipeline :=
  ⟨"vk_shaders/matmul_split_k_reduce.spv", 1, 12, (32, 32, 1), 1⟩

/-- Translation of ggml_vk_guess_matmul_pipeline_align: the tile alignment of
the f32 pipeline of the size tier chosen from (m, n). -/
def ggml_vk_guess_matmul_pipeline_align (m n : Nat) : Nat :=
  if m ≤ 32 ∨ n ≤ 32 then vk_pipeline_matmul_f32_s.align
  else if m ≤ 64 ∨ n ≤ 64 then vk_pipeline_matmul_f32_m.align
  else vk_pipeline_matmul_f32_l.align

/-- Translation of ggml_vk_guess_matmul_pipeline.  The result is none exactly
when the source hits GGML_ASSERT(false), i.e. for bit16_x = false and
bit16_y = true. -/
def ggml_vk_guess_matmul_pipeline (bit16_x bit16_y : Bool) (m n : Nat)
    (aligned : Bool) : Option VkPipeline :=
  if bit16_x ∧ bit16_y then
    if m ≤ 32 ∨ n ≤ 32 then
      some (if aligned then vk_pipeline_matmul_f16_aligned_s else vk_pipeline_matmul_f16_s)
    else if m ≤ 64 ∨ n ≤ 64 then
      some (if aligned then vk_pipeline_matmul_f16_aligned_m else vk_pipeline_matmul_f16_m)
    else
      some (if aligned then vk_pipeline_matmul_f16_aligned_l else vk_pipeline_matmul_f16_l)
  else if bit16_x ∧ ¬bit16_y then
    if m ≤ 32 ∨ n ≤ 32 then
      some (if aligned then vk_pipeline_matmul_f16_f32_aligned_s else vk_pipeline_matmul_f16_f32_s)
    else if m ≤ 64 ∨ n ≤ 64 then
      some (if aligned then vk_pipeline_matmul_f16_f32_aligned_m else vk_pipeline_matmul_f16_f32_m)
    else
      some (if aligned then vk_pipeline_matmul_f16_f32_aligned_l else vk_pipeline_matmul_f16_f32_l)
  else if ¬bit16_x ∧ bit16_y then
    none
  else
    if m ≤ 32 ∨ n ≤ 32 then
      some (if aligned then vk_pipeline_matmul_f32_aligned_s else vk_pipeline_matmul_f32_s)
    else if m ≤ 64 ∨ n ≤ 64 then
      some (if aligned then vk_pipeline_matmul_f32_aligned_m else vk_pipeline_matmul_f32_m)
    else
      some (if aligned then vk_pipeline_matmul_f32_aligned_l else vk_pipeline_matmul_f32_l)

/-- Subbuffer view (vk_subbuffer): buffer identity, byte offset, byte size. -/
structure VkSubBuffer where
  buf : Nat
  offset : Nat
  size : Nat
deriving DecidableEq

/-- Access-mask values appearing in the matmul command recording. -/
inductive VkAccess where
  | memoryRead
  | memoryWrite
  | shaderRead
  | shaderWrite
  | shaderReadWrite
deriving DecidableEq

/-- Commands recorded into a matmul submission.  A sync command stands for a
ggml_vk_sync_buffers call (which emits a pipeline barrier for the listed
buffers whenever force_sync is set or a queue-family ownership transfer is
needed); a dispatch command records the pipeline, its bound buffers, the
push-constant words and the problem extents handed to
ggml_vk_dispatch_pipeline. -/
inductive VkCmd where
  | sync (bufs : List VkSubBuffer) (srcMask dstMask : VkAccess) (forceSync : Bool)
  | dispatch (p : VkPipeline) (bufs : List VkSubBuffer) (pushConstants : List Nat)
      (elements : Nat × Nat × Nat)
deriving DecidableEq

/-- Translation of ggml_vk_matmul: the command sequence it records.  Semaphore
lists and the submission wrapper are elided; the commands appear in source
order. -/
def ggml_vk_matmul (pipeline : VkPipeline) (a b d : VkSubBuffer)
    (m n k stride_a stride_b stride_d split_k : Nat) : List VkCmd :=
  let pre : List VkCmd :=
    [VkCmd.sync [a, b] VkAccess.memoryWrite VkAccess.shaderRead false,
     VkCmd.sync [d] VkAccess.memoryRead VkAccess.shaderWrite false]
  if split_k = 1 then
    pre ++ [VkCmd.dispatch pipeline [a, b, d]
      [m, n, k, stride_a, stride_b, stride_d, k] (m, n, 1)]
  else
    pre ++
      [VkCmd.dispatch pipeline [a, b, d]
        [m, n, k, stride_a, stride_b, stride_d, CEIL_DIV stride_a split_k]
        (m * split_k, n, 1),
       VkCmd.sync [d] VkAccess.memoryWrite VkAccess.shaderReadWrite true,
       VkCmd.dispatch vk_pipeline_matmul_split_k_reduce [d] [m, n, split_k] (m, n, 1)]

/-- Per-batch size of the destination scratch buffer in ggml_vk_mul_mat_f32:
sizeof(float) * d_ne * split_k rounded up to the storage-buffer offset
alignment, with d_ne = ne11 * ne01 = n * m. -/
def ggml_vk_mul_mat_f32_d_sz (m n split_k minAlign : Nat) : Nat :=
  ggml_vk_align_size (4 * (n * m) * split_k) minAlign

theorem le_ggml_vk_align_size (w a : Nat) (ha : 0 < a) : w ≤ ggml_vk_align_size w a := by
  unfold ggml_vk_align_size CEIL_DIV
  have h1 := Nat.div_add_mod (w + a - 1) a
  have h2 : (w + a - 1) % a < a := Nat.mod_lt _ ha
  have h3 : (w + a - 1) / a * a = a * ((w + a - 1) / a) := Nat.mul_comm _ _
  rw [h3]
  set t := a * ((w + a - 1) / a) with ht
  omega

/-- Spec-side matmul pipeline selector, written from the specification text:
small tile when M ≤ 32 ∨ N ≤ 32, else medium when M ≤ 64 ∨ N ≤ 64, else
large; the aligned kernel is chosen iff K = ceil(K, tile.align) * tile.align
with tile alignments 32 / 64 / 128 for small / medium / large; the type
variant is picked by the pair (x_is_16, y_is_16), and (false, true) is a
fatal assertion. -/
def matmul_pipeline_spec (x16 y16 : Bool) (m n k : Nat) : Option VkPipeline :=
  if x16 = false ∧ y16 = true then
    none
  else if m ≤ 32 ∨ n ≤ 32 then
    let al := k = CEIL_DIV k 32 * 32
    some (match x16, y16 with
      | true, true => if al then vk_pipeline_matmul_f16_aligned_s else vk_pipeline_matmul_f16_s
      | true, false => if al then vk_pipeline_matmul_f16_f32_aligned_s else vk_pipeline_matmul_f16_f32_s
      | _, _ => if al then vk_pipeline_matmul_f32_aligned_s else vk_pipeline_matmul_f32_s)
  else if m ≤ 64 ∨ n ≤ 64 then
    let al := k = CEIL_DIV k 64 * 64
    some (match x16, y16 with
      | true, true => if al then vk_pipeline_matmul_f16_aligned_m else vk_pipeline_matmul_f16_m
      | true, false => if al then vk_pipeline_matmul_f16_f32_aligned_m else vk_pipeline_matmul_f16_f32_m
      | _, _ => if al then vk_pipeline_matmul_f32_aligned_m else vk_pipeline_matmul_f32_m)
  else
    let al := k = CEIL_DIV k 128 * 128
    some (match x16, y16 with
      | true, true => if al then vk_pipeline_matmul_f16_aligned_l else vk_pipeline_matmul_f16_l
      | true, false => if al then vk_pipeline_matmul_f16_f32_aligned_l else vk_pipeline_matmul_f16_f32_l
      | _, _ => if al then vk_pipeline_matmul_f32_aligned_l else vk_pipeline_matmul_f32_l)

/-- C1: for every matmul shape (M, N, K), split_k equals 4 exactly when
K > 128 and (M < 128 or N < 128) and 1 otherwise; when split_k > 1 the
matmul pipeline is dispatched over work-group grid (M * split_k, N, 1) with
a per-work-group K-slice push constant ceil(K / split_k) (the orchestrators
pass stride_a = stride_b = K and stride_d = M), the per-batch destination
scratch buffer holds at least M * N * split_k floats, and a second
split_k_reduce dispatch with push constants (M, N, split_k) over grid
(M, N, 1) follows, separated from the first dispatch by a full buffer
barrier on the destination. -/
theorem split_k_plan_follows_spec (p : VkPipeline) (a b d : VkSubBuffer)
    (m n k minAlign : Nat) (hAlign : 0 < minAlign) :
    (ggml_vk_guess_split_k m n k = 4 ↔ 128 < k ∧ (m < 128 ∨ n < 128)) ∧
    (¬(128 < k ∧ (m < 128 ∨ n < 128)) → ggml_vk_guess_split_k m n k = 1) ∧
    (1 < ggml_vk_guess_split_k m n k →
      ggml_vk_matmul p a b d m n k k k m (ggml_vk_guess_split_k m n k) =
        [VkCmd.sync [a, b] VkAccess.memoryWrite VkAccess.shaderRead false,
         VkCmd.sync [d] VkAccess.memoryRead VkAccess.shaderWrite false,
         VkCmd.dispatch p [a, b, d]
           [m, n, k, k, k, m, CEIL_DIV k (ggml_vk_guess_split_k m n k)]
           (m * ggml_vk_guess_split_k m n k, n, 1),
         VkCmd.sync [d] VkAccess.memoryWrite VkAccess.shaderReadWrite true,
         VkCmd.dispatch vk_pipeline_matmul_split_k_reduce [d]
           [m, n, ggml_vk_guess_split_k m n k] (m, n, 1)]) ∧
    4 * (m * n) * ggml_vk_guess_split_k m n k ≤
      ggml_vk_mul_mat_f32_d_sz m n (ggml_vk_guess_split_k m n k) minAlign := by
  have hle : 4 * (m * n) * ggml_vk_guess_split_k m n k ≤
      ggml_vk_mul_mat_f32_d_sz m n (ggml_vk_guess_split_k m n k) minAlign := by
    have h := le_ggml_vk_align_size (4 * (n * m) * ggml_vk_guess_split_k m n k) minAlign hAlign
    unfold ggml_vk_mul_mat_f32_d_sz
    calc 4 * (m * n) * ggml_vk_guess_split_k m n k
        = 4 * (n * m) * ggml_vk_guess_split_k m n k := by ring
      _ ≤ _ := h
  refine ⟨?_, ?_, ?_, hle⟩
  · unfold ggml_vk_guess_split_k
    by_cases h : 128 < k ∧ (m < 128 ∨ n < 128) <;> simp [h]
  · intro h
    unfold ggml_vk_guess_split_k
    simp [h]
  · intro h
    have h4 : ggml_vk_guess_split_k m n k = 4 := by
      unfold ggml_vk_guess_split_k at h ⊢
      by_cases hc : 128 < k ∧ (m < 128 ∨ n < 128) <;> simp [hc] at h ⊢
    rw [h4]
    unfold ggml_vk_matmul
    norm_num

/-- Witness for split_k_plan_follows_spec at (M, N, K) = (64, 64, 256) with a
storage-buffer offset alignment of 32. -/
theorem split_k_plan_follows_spec_witness :
    ggml_vk_guess_split_k 64 64 256 = 4 ∧
    4 * (64 * 64) * ggml_vk_guess_split_k 64 64 256 ≤
      ggml_vk_mul_mat_f32_d_sz 64 64 (ggml_vk_guess_split_k 64 64 256) 32 := by
  have h := split_k_plan_follows_spec vk_pipeline_matmul_f32_m ⟨0, 0, 0⟩ ⟨1, 0, 0⟩ ⟨2, 0, 0⟩
    64 64 256 32 (by decide)
  exact ⟨h.1.mpr (by decide), h.2.2.2⟩

/-- C2: pipeline-variant selection follows the spec: small tile when M ≤ 32 or
N ≤ 32, else medium when M ≤ 64 or N ≤ 64, else large; the aligned variant is
chosen iff K equals ceil(K / tile.align) * tile.align (the callers pass
aligned = decide (K = align_size K (guess_matmul_pipeline_align M N))); the
type variant is selected by (x_is_16, y_is_16) and (false, true) is a fatal
assertion (modelled as none), for every requested alignment flag. -/
theorem matmul_pipeline_selection_follows_spec (x16 y16 : Bool) (m n k : Nat) :
    ggml_vk_guess_matmul_pipeline x16 y16 m n
        (decide (k = ggml_vk_align_size k (ggml_vk_guess_matmul_pipeline_align m n))) =
      matmul_pipeline_spec x16 y16 m n k ∧
    (∀ al : Bool, ggml_vk_guess_matmul_pipeline false true m n al = none) := by
  constructor
  · cases x16 <;> cases y16 <;>
      by_cases h1 : m ≤ 32 ∨ n ≤ 32 <;>
        by_cases h2 : m ≤ 64 ∨ n ≤ 64 <;>
          simp [ggml_vk_guess_matmul_pipeline, matmul_pipeline_spec,
            ggml_vk_guess_matmul_pipeline_align, ggml_vk_align_size,
            vk_pipeline_matmul_f32_s, vk_pipeline_matmul_f32_m, vk_pipeline_matmul_f32_l,
            h1, h2]
  · intro al
    simp [ggml_vk_guess_matmul_pipeline]

/-- Tensor element types.  The source dispatches on the integer ggml_type
enum; quant covers the quantized formats (q4_0, q4_1, ...), indexed by their
enum value. -/
inductive GgmlType where
  | f32
  | f16
  | quant (id : Nat)
deriving DecidableEq

/-- Modelled from the spec: ggml_is_quantized belongs to the host tensor
library (not part of this source file); the spec describes the accepted
operand types as f32, f16 or any-quantized. -/
def ggml_is_quantized : GgmlType → Bool
  | GgmlType.quant _ => true
  | _ => false

/-- Tensor backends (GGML_BACKEND_CPU / GPU / GPU_SPLIT). -/
inductive GgmlBackend where
  | cpu
  | gpu
  | gpuSplit
deriving DecidableEq

/-- Operators: the dispatcher handles GGML_OP_MUL and GGML_OP_MUL_MAT; other
stands for every remaining operator, which takes the default switch branch. -/
inductive GgmlOp where
  | mul
  | mulMat
  | other
deriving DecidableEq

/-- Task phases of ggml_compute_params (GGML_TASK_INIT / COMPUTE / FINALIZE). -/
inductive GgmlTask where
  | init
  | compute
  | finalize
deriving DecidableEq

/-- Tensor data consulted by ggml_vk_can_mul_mat and the dispatcher: element
type, backend, and the first two element counts. -/
structure GgmlTensorInfo where
  type : GgmlType
  backend : GgmlBackend
  ne0 : Nat
  ne1 : Nat
deriving DecidableEq

/-- Translation of ggml_vk_can_mul_mat (the first if-block only logs and
falls through, so it does not affect the result; ne0 and ne1 are read from
dst and ne10 from src1). -/
def ggml_vk_can_mul_mat (src0 src1 dst : GgmlTensorInfo) : Bool :=
  (src0.type == GgmlType.f32 || src0.type == GgmlType.f16 || ggml_is_quantized src0.type) &&
  (src1.type == GgmlType.f32 || src1.type == GgmlType.f16 || ggml_is_quantized src1.type) &&
  dst.type == GgmlType.f32 &&
  ((32 ≤ dst.ne0 && 32 ≤ dst.ne1 && 32 ≤ src1.ne0) || src0.backend == GgmlBackend.gpu)

/-- Tensor node as seen by ggml_vk_compute_forward.  MUL and MUL_MAT nodes
always carry both source operands; the null checks in the source guard
operators without them. -/
structure GgmlTensorNode where
  op : GgmlOp
  info : GgmlTensorInfo
  src0 : GgmlTensorInfo
  src1 : GgmlTensorInfo
deriving DecidableEq

/-- Translation of the any_on_device test at the top of
ggml_vk_compute_forward. -/
def ggml_vk_any_on_device (t : GgmlTensorNode) : Bool :=
  t.info.backend == GgmlBackend.gpu ||
  t.src0.backend == GgmlBackend.gpu || t.src0.backend == GgmlBackend.gpuSplit ||
  t.src1.backend == GgmlBackend.gpu

/-- Translation of ggml_vk_compute_forward.  The result is some of the
returned Bool, and none when the call aborts on an assertion.  The branches
follow the source order: the switch can return false, the short-circuits for
ith different from 0 and for the INIT / FINALIZE phases return true before
func runs, and otherwise func executes and true is returned.  For MUL_MAT,
func = ggml_vk_mul_mat and its first statement is
GGML_ASSERT(ggml_vk_can_mul_mat(src0, src1, dst)), so a node that reaches
func without satisfying ggml_vk_can_mul_mat aborts (none).  Beyond that
entry assertion the orchestrator bodies are not modelled: a run that passes
it is recorded as returning true (assertions deeper inside the orchestrators
— fp16 device capability, dequantization-table coverage of specific
quantized types — concern no claim here); the body of ggml_vk_mul is
likewise not modelled. -/
def ggml_vk_compute_forward (ith : Nat) (task : GgmlTask) (t : GgmlTensorNode) :
    Option Bool :=
  match t.op with
  | GgmlOp.mul =>
    if !ggml_vk_any_on_device t then some false
    else if ith ≠ 0 then some true
    else if task = GgmlTask.init ∨ task = GgmlTask.finalize then some true
    else some true
  | GgmlOp.mulMat =>
    if !ggml_vk_any_on_device t && !ggml_vk_can_mul_mat t.src0 t.src1 t.info then some false
    else if ith ≠ 0 then some true
    else if task = GgmlTask.init ∨ task = GgmlTask.finalize then some true
    else if ggml_vk_can_mul_mat t.src0 t.src1 t.info then some true
    else none
  | GgmlOp.other => some false

/-- Acceptance condition for MUL_MAT as the claim words it: both operand
types in f32 / f16 / any-quantized, destination f32, and (M ≥ 32 and N ≥ 32
and K ≥ 32) or src0 on the GPU backend. -/
def mul_mat_claim_accept (t : GgmlTensorNode) : Prop :=
  (t.src0.type = GgmlType.f32 ∨ t.src0.type = GgmlType.f16 ∨
    ggml_is_quantized t.src0.type = true) ∧
  (t.src1.type = GgmlType.f32 ∨ t.src1.type = GgmlType.f16 ∨
    ggml_is_quantized t.src1.type = true) ∧
  t.info.type = GgmlType.f32 ∧
  ((32 ≤ t.info.ne0 ∧ 32 ≤ t.info.ne1 ∧ 32 ≤ t.src1.ne0) ∨
    t.src0.backend = GgmlBackend.gpu)

/-- A MUL_MAT node that fails the acceptance condition of the claim (all
types f32 but every extent 16 and src0 on CPU) while src1 is GPU-resident,
so any_on_device holds. -/
def small_gpu_src1_node : GgmlTensorNode :=
  { op := GgmlOp.mulMat,
    info := ⟨GgmlType.f32, GgmlBackend.cpu, 16, 16⟩,
    src0 := ⟨GgmlType.f32, GgmlBackend.cpu, 16, 16⟩,
    src1 := ⟨GgmlType.f32, GgmlBackend.gpu, 16, 16⟩ }

/-- Counterexample to C3 as stated: on a MUL_MAT node whose operand extents
are all 16 and whose src0 is on the CPU, the acceptance condition of the
claim fails, yet during the COMPUTE phase on the primary worker the
dispatcher does not return false (the claimed fallback): because src1
resides on the GPU it accepts the node, calls ggml_vk_mul_mat, and aborts in
GGML_ASSERT(ggml_vk_can_mul_mat(src0, src1, dst)) — result none, neither
some true nor some false. -/
theorem compute_forward_claim_counterexample :
    ggml_vk_compute_forward 0 GgmlTask.compute small_gpu_src1_node = none ∧
    ggml_vk_compute_forward 0 GgmlTask.compute small_gpu_src1_node ≠ some false ∧
    ¬ mul_mat_claim_accept small_gpu_src1_node := by
  refine ⟨rfl, by decide, ?_⟩
  intro h
  rcases h with ⟨-, -, -, h | h⟩
  · exact absurd h.1 (by decide)
  · exact absurd h (by decide)

/-- C3 amended: during the COMPUTE phase on the primary worker, a MUL_MAT
node returns true exactly when the acceptance condition of the claim holds;
it returns false (host falls back to CPU) exactly when the acceptance
condition fails and none of the node, src0 (GPU or GPU_SPLIT) or src1
resides on the GPU; and when the acceptance condition fails but one of them
is GPU-resident, the dispatcher still accepts the node and the entry
assertion of ggml_vk_mul_mat aborts the process instead of returning false. -/
theorem compute_forward_mul_mat_amended (ith : Nat) (task : GgmlTask)
    (t : GgmlTensorNode) (hith : ith = 0) (htask : task = GgmlTask.compute)
    (hop : t.op = GgmlOp.mulMat) :
    (ggml_vk_compute_forward ith task t = some true ↔ mul_mat_claim_accept t) ∧
    (ggml_vk_compute_forward ith task t = some false ↔
      ¬ mul_mat_claim_accept t ∧
      ¬(t.info.backend = GgmlBackend.gpu ∨ t.src0.backend = GgmlBackend.gpu ∨
        t.src0.backend = GgmlBackend.gpuSplit ∨ t.src1.backend = GgmlBackend.gpu)) ∧
    (ggml_vk_compute_forward ith task t = none ↔
      ¬ mul_mat_claim_accept t ∧
      (t.info.backend = GgmlBackend.gpu ∨ t.src0.backend = GgmlBackend.gpu ∨
        t.src0.backend = GgmlBackend.gpuSplit ∨ t.src1.backend = GgmlBackend.gpu)) := by
  subst hith htask
  have hval : ggml_vk_compute_forward 0 GgmlTask.compute t =
      (if !ggml_vk_any_on_device t && !ggml_vk_can_mul_mat t.src0 t.src1 t.info then
        some false
      else if ggml_vk_can_mul_mat t.src0 t.src1 t.info then some true
      else none) := by
    unfold ggml_vk_compute_forward
    rw [hop]
    cases hA : ggml_vk_any_on_device t <;>
      cases hB : ggml_vk_can_mul_mat t.src0 t.src1 t.info <;> rfl
  have h1 : ggml_vk_any_on_device t = true ↔
      (t.info.backend = GgmlBackend.gpu ∨ t.src0.backend = GgmlBackend.gpu ∨
        t.src0.backend = GgmlBackend.gpuSplit ∨ t.src1.backend = GgmlBackend.gpu) := by
    unfold ggml_vk_any_on_device
    simp only [Bool.or_eq_true, beq_iff_eq, or_assoc]
  have h2 : ggml_vk_can_mul_mat t.src0 t.src1 t.info = true ↔ mul_mat_claim_accept t := by
    unfold ggml_vk_can_mul_mat mul_mat_claim_accept
    simp only [Bool.or_eq_true, Bool.and_eq_true, beq_iff_eq, decide_eq_true_eq,
      and_assoc, or_assoc]
  rw [hval, ← h2, ← h1]
  cases hA : ggml_vk_any_on_device t <;>
    cases hB : ggml_vk_can_mul_mat t.src0 t.src1 t.info <;> simp

/-- Witness for compute_forward_mul_mat_amended: a 64-cubed all-f32 CPU
matmul is accepted. -/
def big_cpu_node : GgmlTensorNode :=
  { op := GgmlOp.mulMat,
    info := ⟨GgmlType.f32, GgmlBackend.cpu, 64, 64⟩,
    src0 := ⟨GgmlType.f32, GgmlBackend.cpu, 64, 64⟩,
    src1 := ⟨GgmlType.f32, GgmlBackend.cpu, 64, 64⟩ }

theorem compute_forward_mul_mat_amended_witness :
    ggml_vk_compute_forward 0 GgmlTask.compute big_cpu_node = some true :=
  (compute_forward_mul_mat_amended 0 GgmlTask.compute big_cpu_node rfl rfl rfl).1.mpr
    ⟨Or.inl rfl, Or.inl rfl, rfl, Or.inl ⟨by decide, by decide, by decide⟩⟩

/-- Descriptor bookkeeping of a vk_pipeline: the number of pre-allocated
descriptor sets and the rolling next-index cursor descriptor_set_index. -/
structure PipelineDescState where
  sets : Nat
  idx : Nat
deriving DecidableEq

/-- Translation of ggml_vk_pipeline_allocate_descriptor_sets: if fewer than n
sets exist, extend the vector to exactly n sets (both descriptor-pool modes
allocate n - size further sets); the cursor is untouched. -/
def ggml_vk_pipeline_allocate_descriptor_sets (st : PipelineDescState) (n : Nat) :
    PipelineDescState :=
  if n ≤ st.sets then st else { st with sets := n }

/-- Translation of ggml_vk_pipeline_cleanup: reset the cursor, keep every
pool and descriptor set. -/
def ggml_vk_pipeline_cleanup (st : PipelineDescState) : PipelineDescState :=
  { st with idx := 0 }

/-- One ggml_vk_dispatch_pipeline call reads descriptor_sets at the cursor
and advances it; the access is in bounds exactly when idx < sets, and the
step is none on an out-of-bounds access. -/
def ggml_vk_dispatch_pipeline_step (st : PipelineDescState) : Option PipelineDescState :=
  if st.idx < st.sets then some { st with idx := st.idx + 1 } else none

/-- Run d consecutive dispatches. -/
def run_dispatches : Nat → PipelineDescState → Option PipelineDescState
  | 0, st => some st
  | d + 1, st =>
    match ggml_vk_dispatch_pipeline_step st with
    | none => none
    | some st2 => run_dispatches d st2

/-- One op on a pipeline, as the orchestrators drive it: pre-size the
descriptor sets by the dispatch count, issue the dispatches, then clean up. -/
def run_pipeline_op (d : Nat) (st : PipelineDescState) : Option PipelineDescState :=
  match run_dispatches d (ggml_vk_pipeline_allocate_descriptor_sets st d) with
  | none => none
  | some st2 => some (ggml_vk_pipeline_cleanup st2)

/-- A sequence of ops on one pipeline. -/
def run_pipeline_ops : List Nat → PipelineDescState → Option PipelineDescState
  | [], st => some st
  | d :: ds, st =>
    match run_pipeline_op d st with
    | none => none
    | some st2 => run_pipeline_ops ds st2

theorem run_dispatches_ok (d : Nat) : ∀ st : PipelineDescState,
    st.idx + d ≤ st.sets →
    run_dispatches d st = some ⟨st.sets, st.idx + d⟩ := by
  induction d with
  | zero => intro st _; simp [run_dispatches]
  | succ d ih =>
    intro st h
    have hlt : st.idx < st.sets := by omega
    have hstep : ggml_vk_dispatch_pipeline_step st = some ⟨st.sets, st.idx + 1⟩ := by
      unfold ggml_vk_dispatch_pipeline_step
      simp [hlt]
    unfold run_dispatches
    rw [hstep]
    have := ih ⟨st.sets, st.idx + 1⟩ (by simp; omega)
    simpa [Nat.add_comm, Nat.add_assoc, Nat.add_left_comm] using this

/-- C8: for every pipeline and every sequence of ops that pre-size the
descriptor sets by the dispatch count of the op, the cursor never exceeds
the number of descriptor sets at any dispatch (every descriptor-set access
is in bounds, so the whole run succeeds), allocate_descriptor_sets leaves at
least n sets and does not move the cursor, and cleanup resets the cursor to
zero without dropping any set. -/
theorem descriptor_cursor_stays_in_bounds :
    (∀ st n, n ≤ (ggml_vk_pipeline_allocate_descriptor_sets st n).sets ∧
      st.sets ≤ (ggml_vk_pipeline_allocate_descriptor_sets st n).sets ∧
      (ggml_vk_pipeline_allocate_descriptor_sets st n).idx = st.idx) ∧
    (∀ st, (ggml_vk_pipeline_cleanup st).idx = 0 ∧
      (ggml_vk_pipeline_cleanup st).sets = st.sets) ∧
    (∀ ds : List Nat, ∀ st : PipelineDescState, st.idx = 0 →
      (run_pipeline_ops ds st).isSome = true) := by
  refine ⟨?_, ?_, ?_⟩
  · intro st n
    unfold ggml_vk_pipeline_allocate_descriptor_sets
    by_cases h : n ≤ st.sets
    · simp [h]
    · simp [h]
      omega
  · intro st
    exact ⟨rfl, rfl⟩
  · intro ds
    induction ds with
    | nil => intro st _; simp [run_pipeline_ops]
    | cons d ds ih =>
      intro st hidx
      have halloc : (ggml_vk_pipeline_allocate_descriptor_sets st d).idx = st.idx := by
        unfold ggml_vk_pipeline_allocate_descriptor_sets
        by_cases h : d ≤ st.sets <;> simp [h]
      have hsets : d ≤ (ggml_vk_pipeline_allocate_descriptor_sets st d).sets := by
        unfold ggml_vk_pipeline_allocate_descriptor_sets
        by_cases h : d ≤ st.sets <;> simp [h]
      have hrun := run_dispatches_ok d (ggml_vk_pipeline_allocate_descriptor_sets st d)
        (by rw [halloc, hidx]; omega)
      unfold run_pipeline_ops run_pipeline_op
      rw [hrun]
      exact ih _ rfl

/-- Witness for descriptor_cursor_stays_in_bounds at a concrete op list:
three ops of 2, 5 and 3 dispatches starting from a fresh pipeline. -/
theorem descriptor_cursor_stays_in_bounds_witness :
    (run_pipeline_ops [2, 5, 3] ⟨0, 0⟩).isSome = true :=
  descriptor_cursor_stays_in_bounds.2.2 [2, 5, 3] ⟨0, 0⟩ rfl

/-- Process-wide descriptor-pool mode
(VK_DEVICE_DESCRIPTOR_POOL_MODE_UNKNOWN / MULTI / SINGLE). -/
inductive DescriptorPoolMode where
  | unknown
  | multi
  | single
deriving DecidableEq

/-- Translation of the probe block at the top of ggml_vk_create_pipeline:
when the mode is unknown, two descriptor sets are allocated from a trial
pool; catching OutOfPoolMemoryError sets the mode to single, and on success
the mode is left untouched (no assignment exists on the success path). -/
def ggml_vk_create_pipeline_mode (mode : DescriptorPoolMode)
    (probeAllocSucceeds : Bool) : DescriptorPoolMode :=
  match mode with
  | DescriptorPoolMode.unknown =>
    if probeAllocSucceeds then DescriptorPoolMode.unknown else DescriptorPoolMode.single
  | m => m

/-- The probe block runs exactly when the mode is still unknown. -/
def ggml_vk_create_pipeline_probe_runs (mode : DescriptorPoolMode) : Bool :=
  mode == DescriptorPoolMode.unknown

/-- The eager 128-set descriptor pool is created only when the mode after the
probe block is multi. -/
def ggml_vk_create_pipeline_eager_pool (mode : DescriptorPoolMode)
    (probeAllocSucceeds : Bool) : Bool :=
  ggml_vk_create_pipeline_mode mode probeAllocSucceeds == DescriptorPoolMode.multi

/-- Mode evolution across a sequence of pipeline creations, starting from the
value assigned in ggml_vk_init. -/
def run_pipeline_creations : List Bool → DescriptorPoolMode → DescriptorPoolMode
  | [], mode => mode
  | ok :: rest, mode => run_pipeline_creations rest (ggml_vk_create_pipeline_mode mode ok)

/-- C6 evaluated on the code: a successful trial allocation leaves the mode
unknown instead of switching it to multi, so the probe re-runs at the next
pipeline creation, the eager 128-set pool is never created, and no sequence
of pipeline creations starting from the initial unknown mode ever reaches
multi; a failing probe does switch the mode to single. -/
theorem descriptor_pool_mode_multi_unreachable :
    ggml_vk_create_pipeline_mode DescriptorPoolMode.unknown true =
      DescriptorPoolMode.unknown ∧
    ggml_vk_create_pipeline_probe_runs
      (ggml_vk_create_pipeline_mode DescriptorPoolMode.unknown true) = true ∧
    ggml_vk_create_pipeline_eager_pool DescriptorPoolMode.unknown true = false ∧
    ggml_vk_create_pipeline_mode DescriptorPoolMode.unknown false =
      DescriptorPoolMode.single ∧
    ∀ oks : List Bool,
      run_pipeline_creations oks DescriptorPoolMode.unknown ≠ DescriptorPoolMode.multi := by
  refine ⟨rfl, rfl, rfl, rfl, ?_⟩
  have hgen : ∀ (oks : List Bool) (mode : DescriptorPoolMode),
      mode ≠ DescriptorPoolMode.multi →
      run_pipeline_creations oks mode ≠ DescriptorPoolMode.multi := by
    intro oks
    induction oks with
    | nil => intro mode h; simpa [run_pipeline_creations] using h
    | cons ok rest ih =>
      intro mode h
      unfold run_pipeline_creations
      apply ih
      unfold ggml_vk_create_pipeline_mode
      cases mode with
      | unknown => cases ok <;> simp
      | multi => exact absurd rfl h
      | single => simp
  intro oks
  exact hgen oks DescriptorPoolMode.unknown (by simp)

/-- Queues used by the f32 matmul orchestrator. -/
inductive QueueId where
  | tr0
  | tr1
  | comp
deriving DecidableEq

/-- Queue-level events of an orchestrator: a ggml_vk_submit call (which
performs a vkQueueSubmit when its pending sequence list is non-empty), a
queue.waitIdle call, and a ggml_vk_queue_cleanup call. -/
inductive QueueEvent where
  | submit (q : QueueId)
  | waitIdle (q : QueueId)
  | cleanup (q : QueueId)
deriving DecidableEq

/-- Per-batch submit calls of the loop body of ggml_vk_mul_mat_f32, in source
order: submit on transfer queue 0, then on transfer queue 1, then on the
compute queue. -/
def ggml_vk_mul_mat_f32_loop_events : Nat → List QueueEvent
  | 0 => []
  | n + 1 =>
    ggml_vk_mul_mat_f32_loop_events n ++
      [QueueEvent.submit QueueId.tr0, QueueEvent.submit QueueId.tr1,
       QueueEvent.submit QueueId.comp]

/-- Queue-event trace of ggml_vk_mul_mat_f32 with nbatch = ne02 * ne03
batches: the loop, the final submit on transfer queue 0, waitIdle on
transfer queue 0 only, then cleanup of all three queues. -/
def ggml_vk_mul_mat_f32_events (nbatch : Nat) : List QueueEvent :=
  ggml_vk_mul_mat_f32_loop_events nbatch ++
    [QueueEvent.submit QueueId.tr0, QueueEvent.waitIdle QueueId.tr0,
     QueueEvent.cleanup QueueId.tr0, QueueEvent.cleanup QueueId.tr1,
     QueueEvent.cleanup QueueId.comp]

/-- State update for the safety scan: after submit q, queue q is no longer
idle-certified; after waitIdle q it is. -/
def queue_idle_step (f : QueueId → Bool) : QueueEvent → QueueId → Bool
  | QueueEvent.submit q, p => if p = q then false else f p
  | QueueEvent.waitIdle q, p => if p = q then true else f p
  | QueueEvent.cleanup _, p => f p

/-- The claimed temporal property: every cleanup q event happens only when a
waitIdle q has been invoked since the last submit on q (the initial
certification map is passed in; vacuously true queues start as true). -/
def cleanup_only_after_wait_idle (f : QueueId → Bool) : List QueueEvent → Bool
  | [] => true
  | e :: rest =>
    match e with
    | QueueEvent.cleanup q => f q && cleanup_only_after_wait_idle (queue_idle_step f e) rest
    | _ => cleanup_only_after_wait_idle (queue_idle_step f e) rest

/-- Counterexample to C9 as stated: in the trace of ggml_vk_mul_mat_f32 with
a single batch, queue_cleanup is called on transfer queue 1 and on the
compute queue although waitIdle was invoked only on transfer queue 0 after
their last submissions. -/
theorem queue_cleanup_claim_counterexample :
    cleanup_only_after_wait_idle (fun _ => true) (ggml_vk_mul_mat_f32_events 1) = false := by
  decide

/-- C9 amended: in ggml_vk_mul_mat_f32 every queue_cleanup call comes after
the single waitIdle on transfer queue 0, which itself follows every submit
call of the op (on all three queues); only transfer queue 0 gets a waitIdle
of its own, and the cleanups of transfer queue 1 and of the compute queue
rely on that transitive drain instead of a waitIdle on their own queue. -/
theorem mul_mat_f32_cleanup_after_global_drain (nbatch : Nat) :
    ∃ pre,
      ggml_vk_mul_mat_f32_events nbatch =
        pre ++ QueueEvent.waitIdle QueueId.tr0 ::
          [QueueEvent.cleanup QueueId.tr0, QueueEvent.cleanup QueueId.tr1,
           QueueEvent.cleanup QueueId.comp] ∧
      (∀ e ∈ pre, ∀ q, e ≠ QueueEvent.cleanup q ∧ e ≠ QueueEvent.waitIdle q) := by
  refine ⟨ggml_vk_mul_mat_f32_loop_events nbatch ++ [QueueEvent.submit QueueId.tr0], ?_, ?_⟩
  · simp [ggml_vk_mul_mat_f32_events]
  · have hloop : ∀ e ∈ ggml_vk_mul_mat_f32_loop_events nbatch, ∃ q, e = QueueEvent.submit q := by
      induction nbatch with
      | zero => intro e he; simp [ggml_vk_mul_mat_f32_loop_events] at he
      | succ n ih =>
        intro e he
        unfold ggml_vk_mul_mat_f32_loop_events at he
        rw [List.mem_append] at he
        rcases he with he | he
        · exact ih e he
        · simp at he
          rcases he with he | he | he <;> exact ⟨_, he⟩
    intro e he q
    rw [List.mem_append] at he
    rcases he with he | he
    · obtain ⟨q2, hq2⟩ := hloop e he
      subst hq2
      exact ⟨by simp, by simp⟩
    · simp at he
      subst he
      exact ⟨by simp, by simp⟩

/-- Entry of the pinned-memory registry vk_pinned_memory: mapped host
address, byte size, and the identity of the backing host-visible buffer. -/
structure PinnedEntry where
  addr : Nat
  size : Nat
  buf : Nat
deriving DecidableEq

/-- A pointer lies inside a registered range when addr ≤ p < addr + size. -/
def pinned_contains (e : PinnedEntry) (p : Nat) : Prop :=
  e.addr ≤ p ∧ p < e.addr + e.size

instance (e : PinnedEntry) (p : Nat) : Decidable (pinned_contains e p) := by
  unfold pinned_contains; exact inferInstance

/-- Translation of the registry scan in ggml_vk_host_free: first entry whose
range contains the pointer (the inlined check addr ≤ p < addr + size), with
its position. -/
def ggml_vk_host_free_find (p : Nat) : List PinnedEntry → Nat → Option (Nat × PinnedEntry)
  | [], _ => none
  | e :: rest, i =>
    if pinned_contains e p then some (i, e)
    else ggml_vk_host_free_find p rest (i + 1)

/-- Translation of ggml_vk_host_free: when no registered range contains the
pointer, log a warning and return with the registry untouched and nothing
destroyed (first component none); otherwise destroy the buffer of the first
containing entry (first component) and erase exactly that entry. -/
def ggml_vk_host_free (p : Nat) (reg : List PinnedEntry) :
    Option Nat × List PinnedEntry :=
  match ggml_vk_host_free_find p reg 0 with
  | none => (none, reg)
  | some (i, e) => (some e.buf, reg.eraseIdx i)

theorem ggml_vk_host_free_find_none (p : Nat) :
    ∀ (reg : List PinnedEntry) (i0 : Nat),
    (∀ e ∈ reg, ¬ pinned_contains e p) → ggml_vk_host_free_find p reg i0 = none := by
  intro reg
  induction reg with
  | nil => intro i0 _; rfl
  | cons e rest ih =>
    intro i0 h
    have he : ¬ pinned_contains e p := h e (List.mem_cons_self e rest)
    unfold ggml_vk_host_free_find
    rw [if_neg he]
    exact ih (i0 + 1) (fun x hx => h x (List.mem_cons_of_mem e hx))

theorem ggml_vk_host_free_find_first (p : Nat) :
    ∀ (reg : List PinnedEntry) (i0 i : Nat) (hi : i < reg.length),
    pinned_contains (reg.get ⟨i, hi⟩) p →
    (∀ j, ∀ hj : j < reg.length, j < i → ¬ pinned_contains (reg.get ⟨j, hj⟩) p) →
    ggml_vk_host_free_find p reg i0 = some (i0 + i, reg.get ⟨i, hi⟩) := by
  intro reg
  induction reg with
  | nil => intro i0 i hi; simp at hi
  | cons e rest ih =>
    intro i0 i hi hcont hmin
    cases i with
    | zero =>
      have hc0 : pinned_contains e p := hcont
      unfold ggml_vk_host_free_find
      rw [if_pos hc0]
      simp
    | succ i2 =>
      have he : ¬ pinned_contains e p := by
        have := hmin 0 (by simp) (Nat.succ_pos i2)
        simpa using this
      unfold ggml_vk_host_free_find
      rw [if_neg he]
      have hi2 : i2 < rest.length := by simpa using hi
      have hrec := ih (i0 + 1) i2 hi2 (by simpa using hcont)
        (fun j hj hlt => by
          have := hmin (j + 1) (by simpa using Nat.succ_lt_succ hj) (Nat.succ_lt_succ hlt)
          simpa using this)
      rw [hrec]
      have hget : (e :: rest).get ⟨i2 + 1, hi⟩ = rest.get ⟨i2, hi2⟩ := rfl
      rw [hget]
      have harith : i0 + 1 + i2 = i0 + (i2 + 1) := by omega
      rw [harith]

/-- C10: for a pointer lying in no registered pinned range, host_free only
logs a warning: it destroys nothing and leaves the registry unchanged; for a
pointer anywhere inside a registered range (i the position of the first such
entry), it destroys that entry's buffer and removes exactly that entry. -/
theorem host_free_follows_spec (p : Nat) (reg : List PinnedEntry) :
    ((∀ e ∈ reg, ¬ pinned_contains e p) → ggml_vk_host_free p reg = (none, reg)) ∧
    (∀ i, ∀ hi : i < reg.length,
      pinned_contains (reg.get ⟨i, hi⟩) p →
      (∀ j, ∀ hj : j < reg.length, j < i → ¬ pinned_contains (reg.get ⟨j, hj⟩) p) →
      ggml_vk_host_free p reg = (some (reg.get ⟨i, hi⟩).buf, reg.eraseIdx i)) := by
  constructor
  · intro h
    unfold ggml_vk_host_free
    rw [ggml_vk_host_free_find_none p reg 0 h]
  · intro i hi hcont hmin
    unfold ggml_vk_host_free
    rw [ggml_vk_host_free_find_first p reg 0 i hi hcont hmin]
    simp

/-- Witness for host_free_follows_spec: a two-entry registry where the freed
pointer lies strictly inside the second range. -/
theorem host_free_follows_spec_witness :
    ggml_vk_host_free 150 [⟨0, 16, 7⟩, ⟨100, 64, 9⟩] =
      (some 9, [⟨0, 16, 7⟩]) := by
  have h := (host_free_follows_spec 150 [⟨0, 16, 7⟩, ⟨100, 64, 9⟩]).2 1 (by decide)
    (by exact ⟨by decide, by decide⟩)
    (fun j hj hlt => by
      have hj0 : j = 0 := by omega
      subst hj0
      have hget : ([⟨0, 16, 7⟩, ⟨100, 64, 9⟩] : List PinnedEntry).get ⟨0, hj⟩ = ⟨0, 16, 7⟩ := rfl
      rw [hget]
      intro hc
      exact absurd hc.2 (by decide))
  simpa using h

/-- Byte-addressed memory contents of a buffer. -/
def Mem : Type := Nat → Nat

/-- Effect of one copy region (a vkCmdCopyBuffer slice, or a host memcpy):
bytes dstOff ≤ a < dstOff + size read from the source at the same relative
position, everything else is untouched. -/
def copyRegion (srcm : Mem) (srcOff dstOff size : Nat) (dstm : Mem) : Mem :=
  fun a => if dstOff ≤ a ∧ a < dstOff + size then srcm (srcOff + (a - dstOff)) else dstm a

/-- Effect of a memset-to-zero of size bytes at dstOff. -/
def fillZero (dstOff size : Nat) (dstm : Mem) : Mem :=
  fun a => if dstOff ≤ a ∧ a < dstOff + size then 0 else dstm a

/-- Row loop shared by the per-row copy paths: row i moves width bytes from
srcBase + i * srcStride to dstBase + i * dstStride, rows 0 .. h - 1 in
order. -/
def copy_rows (srcm : Mem) (srcBase dstBase srcStride dstStride width : Nat) :
    Nat → Mem → Mem
  | 0, m => m
  | i + 1, m =>
    copyRegion srcm (srcBase + i * srcStride) (dstBase + i * dstStride) width
      (copy_rows srcm srcBase dstBase srcStride dstStride width i m)

/-- Staging-row loop of the zero-padding write: row i is memcpy of width
bytes from i * spitch to i * padded followed by a memset of padded - width
zero bytes. -/
def zeropad_staging_rows (srcm : Mem) (spitch width padded : Nat) : Nat → Mem → Mem
  | 0, m => m
  | i + 1, m =>
    fillZero (i * padded + width) (padded - width)
      (copyRegion srcm (i * spitch) (i * padded) width
        (zeropad_staging_rows srcm spitch width padded i m))

theorem copy_rows_get (srcm : Mem) (sb db ss ds width : Nat) :
    ∀ (h : Nat) (m : Mem) (i j : Nat), i < h → j < width → width ≤ ds →
    copy_rows srcm sb db ss ds width h m (db + i * ds + j) = srcm (sb + i * ss + j) := by
  intro h
  induction h with
  | zero => intro m i j hi; omega
  | succ t ih =>
    intro m i j hi hj hwd
    unfold copy_rows copyRegion
    by_cases hit : i = t
    · subst hit
      rw [if_pos ⟨by omega, by omega⟩]
      congr 1
      omega
    · have hilt : i < t := by omega
      have h1 : i * ds + j < (i + 1) * ds := by
        have hs : (i + 1) * ds = i * ds + ds := Nat.succ_mul i ds
        omega
      have h2 : (i + 1) * ds ≤ t * ds := Nat.mul_le_mul_right ds (by omega)
      rw [if_neg (by omega)]
      exact ih m i j hilt hj hwd

theorem copy_rows_untouched (srcm : Mem) (sb db ss ds width : Nat) :
    ∀ (h : Nat) (m : Mem) (a : Nat),
    (∀ r, r < h → ¬(db + r * ds ≤ a ∧ a < db + r * ds + width)) →
    copy_rows srcm sb db ss ds width h m a = m a := by
  intro h
  induction h with
  | zero => intro m a _; rfl
  | succ t ih =>
    intro m a hout
    unfold copy_rows copyRegion
    rw [if_neg (hout t (Nat.lt_succ_self t))]
    exact ih m a (fun r hr => hout r (Nat.lt_succ_of_lt hr))

theorem copy_rows_out (srcm : Mem) (sb db ss ds width : Nat) :
    ∀ (h : Nat) (m : Mem) (i j : Nat), i < h → width ≤ j → j < ds →
    copy_rows srcm sb db ss ds width h m (db + i * ds + j) = m (db + i * ds + j) := by
  intro h m i j hi hwj hj
  apply copy_rows_untouched
  intro r hr hcontra
  rcases Nat.lt_trichotomy r i with hri | hri | hri
  · have h1 : (r + 1) * ds ≤ i * ds := Nat.mul_le_mul_right ds (by omega)
    have hs : (r + 1) * ds = r * ds + ds := Nat.succ_mul r ds
    omega
  · subst hri
    omega
  · have h1 : (i + 1) * ds ≤ r * ds := Nat.mul_le_mul_right ds (by omega)
    have hs : (i + 1) * ds = i * ds + ds := Nat.succ_mul i ds
    omega

theorem zeropad_staging_rows_get (srcm : Mem) (spitch width padded : Nat) :
    ∀ (h : Nat) (m : Mem) (i j : Nat), i < h → j < width → width ≤ padded →
    zeropad_staging_rows srcm spitch width padded h m (i * padded + j) =
      srcm (i * spitch + j) := by
  intro h
  induction h with
  | zero => intro m i j hi; omega
  | succ t ih =>
    intro m i j hi hj hwp
    unfold zeropad_staging_rows fillZero copyRegion
    by_cases hit : i = t
    · subst hit
      rw [if_neg (by omega)]
      rw [if_pos ⟨by omega, by omega⟩]
      congr 1
      omega
    · have hilt : i < t := by omega
      have h1 : i * padded + j < (i + 1) * padded := by
        have hs : (i + 1) * padded = i * padded + padded := Nat.succ_mul i padded
        omega
      have h2 : (i + 1) * padded ≤ t * padded := Nat.mul_le_mul_right padded (by omega)
      rw [if_neg (by omega)]
      rw [if_neg (by omega)]
      exact ih m i j hilt hj hwp

theorem zeropad_staging_rows_pad (srcm : Mem) (spitch width padded : Nat) :
    ∀ (h : Nat) (m : Mem) (i j : Nat), i < h → width ≤ j → j < padded →
    zeropad_staging_rows srcm spitch width padded h m (i * padded + j) = 0 := by
  intro h
  induction h with
  | zero => intro m i j hi; omega
  | succ t ih =>
    intro m i j hi hwj hj
    unfold zeropad_staging_rows fillZero copyRegion
    by_cases hit : i = t
    · subst hit
      rw [if_pos ⟨by omega, by omega⟩]
    · have hilt : i < t := by omega
      have h1 : i * padded + j < (i + 1) * padded := by
        have hs : (i + 1) * padded = i * padded + padded := Nat.succ_mul i padded
        omega
      have h2 : (i + 1) * padded ≤ t * padded := Nat.mul_le_mul_right padded (by omega)
      rw [if_neg (by omega)]
      rw [if_neg (by omega)]
      exact ih m i j hilt hwj hj

/-- Destination contents of ggml_vk_buffer_write_2d_async_zeropad on the
pinned-source path: the source is the pinned buffer at bufOffset (addressed
relative to the freed pointer), the device fills the whole destination with
zero first when padding is added, then executes the copy slices (one slice
when width = padded = spitch, else one per row with destination stride
padded). -/
def ggml_vk_buffer_write_2d_async_zeropad_pinned_dst (srcm : Mem)
    (bufOffset offset spitch width height align : Nat) (dst0 : Mem) : Mem :=
  let padded := ggml_vk_align_size width align
  let afterFill : Mem := if width < padded then (fun _ => 0) else dst0
  if width = padded ∧ width = spitch then
    copyRegion srcm bufOffset offset (width * height) afterFill
  else
    copy_rows srcm bufOffset offset spitch padded width height afterFill

/-- Destination contents of ggml_vk_buffer_write_2d_async_zeropad on the
staging path: the host memcpys each row into the write-staging buffer at
i * padded and memsets the padded tail (single memcpy when width = padded =
spitch), then a single copy of padded * height bytes moves the staging
buffer to the destination at offset. -/
def ggml_vk_buffer_write_2d_async_zeropad_staging_dst (srcm : Mem)
    (offset spitch width height align : Nat) (dst0 staging0 : Mem) : Mem :=
  let padded := ggml_vk_align_size width align
  let staging :=
    if width = padded ∧ width = spitch then copyRegion srcm 0 0 (width * height) staging0
    else zeropad_staging_rows srcm spitch width padded height staging0
  copyRegion staging 0 offset (padded * height) dst0

/-- C4: after a zero-padding 2-D write of a width-W, height-H source with
alignment A, destination row i holds the source row i in columns [0, W) and
zero in columns [W, ceil(W/A)*A), on both the pinned-source path and the
staging-buffer path. -/
theorem buffer_write_2d_async_zeropad_follows_spec (srcm dst0 staging0 : Mem)
    (bufOffset offset spitch width height align i j : Nat)
    (hAlign : 0 < align) (hi : i < height)
    (hj : j < ggml_vk_align_size width align) :
    (j < width →
      ggml_vk_buffer_write_2d_async_zeropad_pinned_dst srcm bufOffset offset spitch
          width height align dst0
          (offset + i * ggml_vk_align_size width align + j) =
        srcm (bufOffset + i * spitch + j)) ∧
    (width ≤ j →
      ggml_vk_buffer_write_2d_async_zeropad_pinned_dst srcm bufOffset offset spitch
          width height align dst0
          (offset + i * ggml_vk_align_size width align + j) = 0) ∧
    (j < width →
      ggml_vk_buffer_write_2d_async_zeropad_staging_dst srcm offset spitch
          width height align dst0 staging0
          (offset + i * ggml_vk_align_size width align + j) =
        srcm (i * spitch + j)) ∧
    (width ≤ j →
      ggml_vk_buffer_write_2d_async_zeropad_staging_dst srcm offset spitch
          width height align dst0 staging0
          (offset + i * ggml_vk_align_size width align + j) = 0) := by
  set padded := ggml_vk_align_size width align with hpad
  have hwp : width ≤ padded := le_ggml_vk_align_size width align hAlign
  have hin : i * padded + j < padded * height := by
    have h1 : i * padded + j < (i + 1) * padded := by
      have hs : (i + 1) * padded = i * padded + padded := Nat.succ_mul i padded
      omega
    have h2 : (i + 1) * padded ≤ height * padded := Nat.mul_le_mul_right padded (by omega)
    have h3 : height * padded = padded * height := Nat.mul_comm height padded
    omega
  have hstag : ∀ staging : Mem,
      copyRegion staging 0 offset (padded * height) dst0 (offset + i * padded + j) =
        staging (i * padded + j) := by
    intro staging
    unfold copyRegion
    rw [if_pos ⟨by omega, by omega⟩]
    congr 1
    omega
  refine ⟨?_, ?_, ?_, ?_⟩
  · intro hjw
    unfold ggml_vk_buffer_write_2d_async_zeropad_pinned_dst
    rw [← hpad]
    by_cases hc : width = padded ∧ width = spitch
    · have hww : width = padded := hc.1
      have hws : width = spitch := hc.2
      rw [if_pos hc]
      unfold copyRegion
      have hin2 : i * width + j < width * height := by
        have h2 : (i + 1) * width ≤ height * width := Nat.mul_le_mul_right width (by omega)
        have hs : (i + 1) * width = i * width + width := Nat.succ_mul i width
        have h3 : height * width = width * height := Nat.mul_comm height width
        omega
      rw [← hww, ← hws]
      rw [if_pos ⟨by omega, by omega⟩]
      congr 1
      omega
    · rw [if_neg hc]
      exact copy_rows_get srcm bufOffset offset spitch padded width height _ i j hi hjw hwp
  · intro hwj
    have hwlt : width < padded := by omega
    unfold ggml_vk_buffer_write_2d_async_zeropad_pinned_dst
    rw [← hpad]
    have hc : ¬(width = padded ∧ width = spitch) := by
      intro hc
      omega
    rw [if_neg hc]
    rw [copy_rows_out srcm bufOffset offset spitch padded width height _ i j hi hwj (by omega)]
    simp [hwlt]
  · intro hjw
    unfold ggml_vk_buffer_write_2d_async_zeropad_staging_dst
    rw [← hpad]
    rw [hstag]
    by_cases hc : width = padded ∧ width = spitch
    · have hww : width = padded := hc.1
      have hws : width = spitch := hc.2
      rw [if_pos hc]
      unfold copyRegion
      have hin2 : i * width + j < width * height := by
        have h2 : (i + 1) * width ≤ height * width := Nat.mul_le_mul_right width (by omega)
        have hs : (i + 1) * width = i * width + width := Nat.succ_mul i width
        have h3 : height * width = width * height := Nat.mul_comm height width
        omega
      rw [← hww, ← hws]
      rw [if_pos ⟨by omega, by omega⟩]
      congr 1
      omega
    · rw [if_neg hc]
      exact zeropad_staging_rows_get srcm spitch width padded height _ i j hi hjw hwp
  · intro hwj
    have hwlt : width < padded := by omega
    unfold ggml_vk_buffer_write_2d_async_zeropad_staging_dst
    rw [← hpad]
    rw [hstag]
    have hc : ¬(width = padded ∧ width = spitch) := by
      intro hc
      omega
    rw [if_neg hc]
    exact zeropad_staging_rows_pad srcm spitch width padded height _ i j hi hwj (by omega)

/-- Witness for buffer_write_2d_async_zeropad_follows_spec: width 3, height
2, alignment 4 (so padded row pitch 4), source pitch 5; row 1 column 3 of
the pinned path reads zero and row 1 column 1 of the staging path reads the
source byte at 1 * 5 + 1. -/
theorem buffer_write_2d_async_zeropad_follows_spec_witness :
    ggml_vk_buffer_write_2d_async_zeropad_pinned_dst (fun a => a + 3) 11 7 5 3 2 4
        (fun _ => 99) (7 + 1 * ggml_vk_align_size 3 4 + 3) = 0 ∧
    ggml_vk_buffer_write_2d_async_zeropad_staging_dst (fun a => a + 3) 7 5 3 2 4
        (fun _ => 99) (fun _ => 88) (7 + 1 * ggml_vk_align_size 3 4 + 1) =
      (fun a => a + 3) (1 * 5 + 1) := by
  constructor
  · exact (buffer_write_2d_async_zeropad_follows_spec (fun a => a + 3) (fun _ => 99)
      (fun _ => 88) 11 7 5 3 2 4 1 3 (by decide) (by decide) (by decide)).2.1 (by decide)
  · exact (buffer_write_2d_async_zeropad_follows_spec (fun a => a + 3) (fun _ => 99)
      (fun _ => 88) 11 7 5 3 2 4 1 1 (by decide) (by decide) (by decide)).2.2.1 (by decide)

/-- Destination contents of ggml_vk_buffer_write_2d_async on the pinned
path: a single slice when width = spitch, else one slice per row with
destination stride width (the pinned buffer is addressed relative to the
source pointer, so bufOffset plays the role of buf_offset). -/
def ggml_vk_buffer_write_2d_async_pinned_dst (srcm : Mem)
    (bufOffset offset spitch width height : Nat) (dst0 : Mem) : Mem :=
  if width = spitch then copyRegion srcm bufOffset offset (width * height) dst0
  else copy_rows srcm bufOffset offset spitch width width height dst0

/-- Destination contents of ggml_vk_buffer_write_2d_async on the staging
path: the host memcpys into the write-staging buffer (a single memcpy at 0
when width = spitch, else row i at offset + i * width — the staging offset
mirrors the source), then one copy of width * height bytes from staging
position 0 to the destination at offset. -/
def ggml_vk_buffer_write_2d_async_staging_dst (srcm : Mem)
    (offset spitch width height : Nat) (dst0 staging0 : Mem) : Mem :=
  let staging : Mem :=
    if width = spitch then copyRegion srcm 0 0 (width * height) staging0
    else copy_rows srcm 0 offset spitch width width height staging0
  copyRegion staging 0 offset (width * height) dst0

/-- Tensor record consulted by ggml_vk_h2d_tensor_2d and
ggml_vk_transform_tensor, together with its data field. -/
structure VkBufferModel where
  size : Nat
  deviceLocal : Bool
  contents : Mem

/-- Data field of a tensor: a host pointer, or (after transform_tensor) a
heap-allocated handle to a device buffer. -/
inductive TensorDataField where
  | hostPtr
  | deviceHandle (buf : VkBufferModel)

structure GgmlTensor2d where
  ne0 : Nat
  ne1 : Nat
  ne2 : Nat
  ne3 : Nat
  nb0 : Nat
  nb1 : Nat
  nb2 : Nat
  nb3 : Nat
  backend : GgmlBackend
  tdata : TensorDataField

/-- Translation of ggml_vk_h2d_tensor_2d, restricted to the destination
contents it produces: ts and bs are ggml_type_size and ggml_blck_size of the
tensor type (provided by the host tensor library), srcPinned tells whether
the source pointer lies in the pinned registry, and none is the
GGML_ASSERT(false) branch for nb0 different from the type size. -/
def ggml_vk_h2d_tensor_2d_dst (ts bs : Nat) (srcPinned : Bool) (t : GgmlTensor2d)
    (host : Mem) (offset i3 i2 : Nat) (dst0 staging0 : Mem) : Option Mem :=
  if t.nb0 = ts ∧ t.nb1 = ts * t.ne0 / bs then
    some (if srcPinned then
        ggml_vk_buffer_write_2d_async_pinned_dst
          (fun a => host (i2 * t.nb2 + i3 * t.nb3 + a)) 0 offset 0 (t.ne1 * t.nb1) 1 dst0
      else
        ggml_vk_buffer_write_2d_async_staging_dst
          (fun a => host (i2 * t.nb2 + i3 * t.nb3 + a)) offset 0 (t.ne1 * t.nb1) 1
          dst0 staging0)
  else if t.nb0 = ts then
    some (if srcPinned then
        ggml_vk_buffer_write_2d_async_pinned_dst
          (fun a => host (i2 * t.nb2 + i3 * t.nb3 + a)) 0 offset t.nb1 (ts * t.ne0 / bs)
          t.ne1 dst0
      else
        ggml_vk_buffer_write_2d_async_staging_dst
          (fun a => host (i2 * t.nb2 + i3 * t.nb3 + a)) offset t.nb1 (ts * t.ne0 / bs)
          t.ne1 dst0 staging0)
  else none

/-- Translation of ggml_vk_transform_tensor: require ne2 = ne3 = 1, create a
fresh device-local buffer of q_sz = type_size * ne0 * ne1 * ne2 * ne3 /
block_size bytes, upload the tensor bytes through ggml_vk_h2d_tensor_2d at
offset 0 with i3 = i2 = 0, and replace the data field by a heap-allocated
handle to that buffer; the closing GGML_ASSERT requires the backend to be
GPU already, so a non-GPU backend also aborts (none). -/
def ggml_vk_transform_tensor (ts bs : Nat) (srcPinned : Bool) (host : Mem)
    (t : GgmlTensor2d) (dst0 staging0 : Mem) : Option GgmlTensor2d :=
  if t.ne2 = 1 ∧ t.ne3 = 1 then
    match ggml_vk_h2d_tensor_2d_dst ts bs srcPinned t host 0 0 0 dst0 staging0 with
    | none => none
    | some contents =>
      if t.backend = GgmlBackend.gpu then
        let buf := VkBufferModel.mk (ts * t.ne0 * t.ne1 * t.ne2 * t.ne3 / bs) true contents
        some { t with tdata := TensorDataField.deviceHandle buf }
      else none
  else none

theorem buffer_write_2d_async_pinned_dst_get (srcm dst0 : Mem)
    (bufOffset offset spitch width height i j : Nat)
    (hi : i < height) (hj : j < width) :
    ggml_vk_buffer_write_2d_async_pinned_dst srcm bufOffset offset spitch width height dst0
        (offset + i * width + j) = srcm (bufOffset + i * spitch + j) := by
  have hin : i * width + j < width * height := by
    have h2 : (i + 1) * width ≤ height * width := Nat.mul_le_mul_right width (by omega)
    have hs : (i + 1) * width = i * width + width := Nat.succ_mul i width
    have h3 : height * width = width * height := Nat.mul_comm height width
    omega
  unfold ggml_vk_buffer_write_2d_async_pinned_dst
  by_cases hc : width = spitch
  · rw [if_pos hc]
    unfold copyRegion
    rw [if_pos ⟨by omega, by omega⟩]
    rw [← hc]
    congr 1
    omega
  · rw [if_neg hc]
    exact copy_rows_get srcm bufOffset offset spitch width width height _ i j hi hj
      (Nat.le_refl width)

theorem buffer_write_2d_async_staging_dst_get (srcm dst0 staging0 : Mem)
    (spitch width height i j : Nat)
    (hi : i < height) (hj : j < width) :
    ggml_vk_buffer_write_2d_async_staging_dst srcm 0 spitch width height dst0 staging0
        (i * width + j) = srcm (i * spitch + j) := by
  have hin : i * width + j < width * height := by
    have h2 : (i + 1) * width ≤ height * width := Nat.mul_le_mul_right width (by omega)
    have hs : (i + 1) * width = i * width + width := Nat.succ_mul i width
    have h3 : height * width = width * height := Nat.mul_comm height width
    omega
  unfold ggml_vk_buffer_write_2d_async_staging_dst
  have houter : ∀ staging : Mem,
      copyRegion staging 0 0 (width * height) dst0 (i * width + j) =
        staging (i * width + j) := by
    intro staging
    unfold copyRegion
    rw [if_pos ⟨by omega, by omega⟩]
    congr 1
    omega
  by_cases hc : width = spitch
  · rw [if_pos hc, houter]
    unfold copyRegion
    rw [if_pos ⟨by omega, by omega⟩]
    rw [← hc]
    congr 1
    omega
  · rw [if_neg hc, houter]
    have h := copy_rows_get srcm 0 0 spitch width width height staging0 i j hi hj
      (Nat.le_refl width)
    simpa using h

/-- C7: for every tensor with ne2 = 1 and ne3 = 1 (and backend GPU, which
the closing assertion requires), transform_tensor returns a tensor whose
data field is a heap-allocated handle to a freshly allocated device-local
buffer of q_sz bytes holding the uploaded tensor bytes, and whose backend is
GPU on return; for ne2 different from 1 or ne3 different from 1 it asserts
and aborts (none). -/
theorem transform_tensor_follows_spec (ts bs : Nat) (srcPinned : Bool)
    (host dst0 staging0 : Mem) (t : GgmlTensor2d) :
    (¬(t.ne2 = 1 ∧ t.ne3 = 1) →
      ggml_vk_transform_tensor ts bs srcPinned host t dst0 staging0 = none) ∧
    (∀ t2, ggml_vk_transform_tensor ts bs srcPinned host t dst0 staging0 = some t2 →
      t2.backend = GgmlBackend.gpu ∧
      ∃ buf, t2.tdata = TensorDataField.deviceHandle buf ∧
        buf.deviceLocal = true ∧
        buf.size = ts * t.ne0 * t.ne1 * t.ne2 * t.ne3 / bs ∧
        (t.nb0 = ts → t.nb1 = ts * t.ne0 / bs →
          ∀ a, a < t.ne1 * t.nb1 → buf.contents a = host a) ∧
        (t.nb0 = ts → t.nb1 ≠ ts * t.ne0 / bs →
          ∀ i j, i < t.ne1 → j < ts * t.ne0 / bs →
            buf.contents (i * (ts * t.ne0 / bs) + j) = host (i * t.nb1 + j))) := by
  constructor
  · intro h
    unfold ggml_vk_transform_tensor
    rw [if_neg h]
  · intro t2 heq
    unfold ggml_vk_transform_tensor at heq
    by_cases h23 : t.ne2 = 1 ∧ t.ne3 = 1
    swap
    · rw [if_neg h23] at heq
      exact Option.noConfusion heq
    rw [if_pos h23] at heq
    rcases hcm : ggml_vk_h2d_tensor_2d_dst ts bs srcPinned t host 0 0 0 dst0 staging0 with
      _ | contents
    · rw [hcm] at heq
      exact Option.noConfusion heq
    rw [hcm] at heq
    by_cases hb : t.backend = GgmlBackend.gpu
    swap
    · simp only [if_neg hb] at heq
      exact Option.noConfusion heq
    simp only [if_pos hb] at heq
    have ht2 : t2 = { t with tdata := TensorDataField.deviceHandle (VkBufferModel.mk (ts * t.ne0 * t.ne1 * t.ne2 * t.ne3 / bs) true contents) } :=
      (Option.some.inj heq).symm
    subst ht2
    refine ⟨hb, VkBufferModel.mk (ts * t.ne0 * t.ne1 * t.ne2 * t.ne3 / bs) true contents,
      rfl, rfl, rfl, ?_, ?_⟩
    · intro hnb0 hnb1 a ha
      unfold ggml_vk_h2d_tensor_2d_dst at hcm
      rw [if_pos ⟨hnb0, hnb1⟩] at hcm
      have hcontents := Option.some.inj hcm
      rw [← hcontents]
      cases srcPinned with
      | true =>
        simp only [if_pos rfl]
        have h := buffer_write_2d_async_pinned_dst_get
          (fun a2 => host (0 * t.nb2 + 0 * t.nb3 + a2)) dst0 0 0 0 (t.ne1 * t.nb1) 1 0 a
          (by omega) ha
        simp only [Nat.zero_mul, Nat.zero_add, Nat.mul_zero, Nat.add_zero] at h
        simpa using h
      | false =>
        simp only [Bool.false_eq_true, if_false]
        have h := buffer_write_2d_async_staging_dst_get
          (fun a2 => host (0 * t.nb2 + 0 * t.nb3 + a2)) dst0 staging0 0 (t.ne1 * t.nb1) 1 0 a
          (by omega) ha
        simp only [Nat.zero_mul, Nat.zero_add, Nat.mul_zero, Nat.add_zero] at h
        simpa using h
    · intro hnb0 hnb1 i j hi hj
      unfold ggml_vk_h2d_tensor_2d_dst at hcm
      rw [if_neg (by
        intro hcc
        exact hnb1 hcc.2)] at hcm
      rw [if_pos hnb0] at hcm
      have hcontents := Option.some.inj hcm
      rw [← hcontents]
      cases srcPinned with
      | true =>
        simp only [if_pos rfl]
        have h := buffer_write_2d_async_pinned_dst_get
          (fun a2 => host (0 * t.nb2 + 0 * t.nb3 + a2)) dst0 0 0 t.nb1 (ts * t.ne0 / bs)
          t.ne1 i j hi hj
        simp only [Nat.zero_mul, Nat.zero_add, Nat.add_zero] at h
        simpa using h
      | false =>
        simp only [Bool.false_eq_true, if_false]
        have h := buffer_write_2d_async_staging_dst_get
          (fun a2 => host (0 * t.nb2 + 0 * t.nb3 + a2)) dst0 staging0 t.nb1
          (ts * t.ne0 / bs) t.ne1 i j hi hj
        simp only [Nat.zero_mul, Nat.zero_add, Nat.add_zero] at h
        simpa using h

/-- A rank-3 tensor (ne2 = 2): transform_tensor must abort on it. -/
def rank3_tensor : GgmlTensor2d :=
  { ne0 := 4, ne1 := 2, ne2 := 2, ne3 := 1,
    nb0 := 1, nb1 := 4, nb2 := 8, nb3 := 16,
    backend := GgmlBackend.gpu, tdata := TensorDataField.hostPtr }

/-- Witness for transform_tensor_follows_spec: the ne2 = 2 tensor aborts. -/
theorem transform_tensor_follows_spec_witness :
    ggml_vk_transform_tensor 1 1 false (fun a => a + 1) rank3_tensor
      (fun _ => 0) (fun _ => 0) = none :=
  (transform_tensor_follows_spec 1 1 false (fun a => a + 1) (fun _ => 0) (fun _ => 0)
    rank3_tensor).1 (by
      intro h
      exact absurd h.1 (by decide))

/-- Slot of the fixed buffer-pool array g_vk_buffer_pool: the recorded
buffer size (0 marks an unused slot) and the identity of the buffer held in
it. -/
structure PoolSlot where
  size : Nat
  id : Nat
deriving DecidableEq

/-- Memory property flags of a buffer allocation. -/
structure MemFlags where
  deviceLocal : Bool
  hostVisible : Bool
  hostCoherent : Bool
  hostCached : Bool
deriving DecidableEq

/-- Result of pool_malloc: a recycled pool buffer, or a fresh
ggml_vk_create_buffer allocation with the given flags. -/
inductive PoolAlloc where
  | reused (b : PoolSlot)
  | fresh (size : Nat) (flags : MemFlags)
deriving DecidableEq

/-- Best-fit scan of ggml_vk_pool_malloc: the smallest slot with
size > 0 and size ≥ req, first index winning ties (the source updates only
on a strict size improvement, with best_size starting at SIZE_MAX — an
empty accumulator here). -/
def pool_best_scan (req : Nat) : List PoolSlot → Nat → Option (Nat × PoolSlot) →
    Option (Nat × PoolSlot)
  | [], _, best => best
  | s :: rest, i, best =>
    pool_best_scan req rest (i + 1)
      (match best with
       | none => if 0 < s.size ∧ req ≤ s.size then some (i, s) else none
       | some (bi, b) =>
         if 0 < s.size ∧ req ≤ s.size ∧ s.size < b.size then some (i, s) else some (bi, b))

/-- Worst scan of ggml_vk_pool_malloc: the largest slot with size > 0, first
index winning ties (the source updates only on a strict improvement over
worst_size, which starts at 0). -/
def pool_worst_scan : List PoolSlot → Nat → Option (Nat × PoolSlot) →
    Option (Nat × PoolSlot)
  | [], _, worst => worst
  | s :: rest, i, worst =>
    pool_worst_scan rest (i + 1)
      (match worst with
       | none => if 0 < s.size then some (i, s) else none
       | some (wi, w) =>
         if 0 < s.size ∧ w.size < s.size then some (i, s) else some (wi, w))

/-- Translation of ggml_vk_pool_malloc.  The C loop computes the best and
worst indices in one pass; the two scans above are that pass split in two.
The result records the allocation handed to the caller, the pool array
afterwards, and the buffer destroyed to make room (ggml_vk_destroy_buffer
zeroes the victim slot's size). -/
def ggml_vk_pool_malloc (req : Nat) (pool : List PoolSlot) (flags : MemFlags) :
    PoolAlloc × List PoolSlot × Option PoolSlot :=
  match pool_best_scan req pool 0 none with
  | some (i, b) => (PoolAlloc.reused b, pool.set i ⟨0, b.id⟩, none)
  | none =>
    match pool_worst_scan pool 0 none with
    | some (i, w) =>
      (PoolAlloc.fresh req { flags with deviceLocal := true }, pool.set i ⟨0, w.id⟩, some w)
    | none => (PoolAlloc.fresh req { flags with deviceLocal := true }, pool, none)

/-- Translation of ggml_vk_pool_free: place the buffer into the first unused
slot; with no unused slot a warning is printed and the buffer destroyed,
leaving the pool unchanged. -/
def ggml_vk_pool_free (buffer : PoolSlot) : List PoolSlot → List PoolSlot
  | [] => []
  | s :: rest => if s.size = 0 then buffer :: rest else s :: ggml_vk_pool_free buffer rest

theorem pool_best_scan_spec (req : Nat) :
    ∀ (l : List PoolSlot) (i0 : Nat) (acc : Option (Nat × PoolSlot)),
    (pool_best_scan req l i0 acc = acc ∧
      (∀ s ∈ l, 0 < s.size → req ≤ s.size →
        ∃ ib, acc = some ib ∧ (ib.2).size ≤ s.size)) ∨
    (∃ t, ∃ ht : t < l.length,
      pool_best_scan req l i0 acc = some (i0 + t, l.get ⟨t, ht⟩) ∧
      0 < (l.get ⟨t, ht⟩).size ∧ req ≤ (l.get ⟨t, ht⟩).size ∧
      (∀ s ∈ l, 0 < s.size → req ≤ s.size → (l.get ⟨t, ht⟩).size ≤ s.size) ∧
      (∀ ib, acc = some ib → (l.get ⟨t, ht⟩).size < (ib.2).size)) := by
  intro l
  induction l with
  | nil =>
    intro i0 acc
    left
    refine ⟨rfl, ?_⟩
    intro s2 hs2
    simp at hs2
  | cons s rest ih =>
    intro i0 acc
    cases acc with
    | none =>
      by_cases hq : 0 < s.size ∧ req ≤ s.size
      · have hstep : pool_best_scan req (s :: rest) i0 none =
            pool_best_scan req rest (i0 + 1) (if 0 < s.size ∧ req ≤ s.size then some (i0, s) else none) := rfl
        rw [if_pos hq] at hstep
        rcases ih (i0 + 1) (some (i0, s)) with ⟨hEq, hMin⟩ | ⟨t, ht, hEq, hq2, hq3, hMin, hAcc⟩
        · right
          have hget0 : (s :: rest).get ⟨0, by simp⟩ = s := rfl
          refine ⟨0, by simp, ?_, ?_, ?_, ?_, ?_⟩
          · rw [hstep, hEq, hget0, Nat.add_zero]
          · rw [hget0]; exact hq.1
          · rw [hget0]; exact hq.2
          · intro s2 hs2 h1 h2
            rw [hget0]
            rcases List.mem_cons.mp hs2 with hh | hh
            · subst hh; exact Nat.le_refl _
            · obtain ⟨ib, hib, hle⟩ := hMin s2 hh h1 h2
              have hib2 : (i0, s) = ib := Option.some.inj hib
              rw [← hib2] at hle
              exact hle
          · intro ib hib
            exact Option.noConfusion hib
        · right
          have hlt : t + 1 < (s :: rest).length := by simp; omega
          have hgett : (s :: rest).get ⟨t + 1, hlt⟩ = rest.get ⟨t, ht⟩ := rfl
          refine ⟨t + 1, hlt, ?_, ?_, ?_, ?_, ?_⟩
          · rw [hstep, hEq, hgett]
            congr 2
            omega
          · rw [hgett]; exact hq2
          · rw [hgett]; exact hq3
          · intro s2 hs2 h1 h2
            rw [hgett]
            rcases List.mem_cons.mp hs2 with hh | hh
            · rw [hh]
              exact Nat.le_of_lt (hAcc (i0, s) rfl)
            · exact hMin s2 hh h1 h2
          · intro ib hib
            exact Option.noConfusion hib
      · have hstep : pool_best_scan req (s :: rest) i0 none =
            pool_best_scan req rest (i0 + 1) (if 0 < s.size ∧ req ≤ s.size then some (i0, s) else none) := rfl
        rw [if_neg hq] at hstep
        rcases ih (i0 + 1) none with ⟨hEq, hMin⟩ | ⟨t, ht, hEq, hq2, hq3, hMin, hAcc⟩
        · left
          refine ⟨by rw [hstep, hEq], ?_⟩
          intro s2 hs2 h1 h2
          rcases List.mem_cons.mp hs2 with hh | hh
          · subst hh; exact absurd ⟨h1, h2⟩ hq
          · obtain ⟨ib, hib, _⟩ := hMin s2 hh h1 h2
            exact Option.noConfusion hib
        · right
          have hlt : t + 1 < (s :: rest).length := by simp; omega
          have hgett : (s :: rest).get ⟨t + 1, hlt⟩ = rest.get ⟨t, ht⟩ := rfl
          refine ⟨t + 1, hlt, ?_, ?_, ?_, ?_, ?_⟩
          · rw [hstep, hEq, hgett]
            congr 2
            omega
          · rw [hgett]; exact hq2
          · rw [hgett]; exact hq3
          · intro s2 hs2 h1 h2
            rw [hgett]
            rcases List.mem_cons.mp hs2 with hh | hh
            · subst hh; exact absurd ⟨h1, h2⟩ hq
            · exact hMin s2 hh h1 h2
          · intro ib hib
            exact Option.noConfusion hib
    | some bpair =>
      obtain ⟨bi, b⟩ := bpair
      by_cases hq : 0 < s.size ∧ req ≤ s.size ∧ s.size < b.size
      · have hstep : pool_best_scan req (s :: rest) i0 (some (bi, b)) =
            pool_best_scan req rest (i0 + 1)
              (if 0 < s.size ∧ req ≤ s.size ∧ s.size < b.size then some (i0, s) else some (bi, b)) := rfl
        rw [if_pos hq] at hstep
        rcases ih (i0 + 1) (some (i0, s)) with ⟨hEq, hMin⟩ | ⟨t, ht, hEq, hq2, hq3, hMin, hAcc⟩
        · right
          have hget0 : (s :: rest).get ⟨0, by simp⟩ = s := rfl
          refine ⟨0, by simp, ?_, ?_, ?_, ?_, ?_⟩
          · rw [hstep, hEq, hget0, Nat.add_zero]
          · rw [hget0]; exact hq.1
          · rw [hget0]; exact hq.2.1
          · intro s2 hs2 h1 h2
            rw [hget0]
            rcases List.mem_cons.mp hs2 with hh | hh
            · subst hh; exact Nat.le_refl _
            · obtain ⟨ib, hib, hle⟩ := hMin s2 hh h1 h2
              have hib2 : (i0, s) = ib := Option.some.inj hib
              rw [← hib2] at hle
              exact hle
          · intro ib hib
            have hib2 : (bi, b) = ib := Option.some.inj hib
            rw [← hib2]
            rw [hget0]
            exact hq.2.2
        · right
          have hlt : t + 1 < (s :: rest).length := by simp; omega
          have hgett : (s :: rest).get ⟨t + 1, hlt⟩ = rest.get ⟨t, ht⟩ := rfl
          refine ⟨t + 1, hlt, ?_, ?_, ?_, ?_, ?_⟩
          · rw [hstep, hEq, hgett]
            congr 2
            omega
          · rw [hgett]; exact hq2
          · rw [hgett]; exact hq3
          · intro s2 hs2 h1 h2
            rw [hgett]
            rcases List.mem_cons.mp hs2 with hh | hh
            · rw [hh]
              exact Nat.le_of_lt (hAcc (i0, s) rfl)
            · exact hMin s2 hh h1 h2
          · intro ib hib
            have hib2 : (bi, b) = ib := Option.some.inj hib
            rw [← hib2]
            rw [hgett]
            have hlt2 := hAcc (i0, s) rfl
            have hlt3 : s.size < b.size := hq.2.2
            calc (rest.get ⟨t, ht⟩).size < s.size := hlt2
              _ < b.size := hlt3
      · have hstep : pool_best_scan req (s :: rest) i0 (some (bi, b)) =
            pool_best_scan req rest (i0 + 1)
              (if 0 < s.size ∧ req ≤ s.size ∧ s.size < b.size then some (i0, s) else some (bi, b)) := rfl
        rw [if_neg hq] at hstep
        rcases ih (i0 + 1) (some (bi, b)) with ⟨hEq, hMin⟩ | ⟨t, ht, hEq, hq2, hq3, hMin, hAcc⟩
        · left
          refine ⟨by rw [hstep, hEq], ?_⟩
          intro s2 hs2 h1 h2
          rcases List.mem_cons.mp hs2 with hh | hh
          · refine ⟨(bi, b), rfl, ?_⟩
            show b.size ≤ s2.size
            rw [hh] at h1 h2 ⊢
            have hns : ¬ s.size < b.size := fun hcon => hq ⟨h1, h2, hcon⟩
            omega
          · exact hMin s2 hh h1 h2
        · right
          have hlt : t + 1 < (s :: rest).length := by simp; omega
          have hgett : (s :: rest).get ⟨t + 1, hlt⟩ = rest.get ⟨t, ht⟩ := rfl
          refine ⟨t + 1, hlt, ?_, ?_, ?_, ?_, ?_⟩
          · rw [hstep, hEq, hgett]
            congr 2
            omega
          · rw [hgett]; exact hq2
          · rw [hgett]; exact hq3
          · intro s2 hs2 h1 h2
            rw [hgett]
            rcases List.mem_cons.mp hs2 with hh | hh
            · rw [hh] at h1 h2 ⊢
              have hb2 : (rest.get ⟨t, ht⟩).size < b.size := hAcc (bi, b) rfl
              have hns : ¬ s.size < b.size := fun hcon => hq ⟨h1, h2, hcon⟩
              omega
            · exact hMin s2 hh h1 h2
          · intro ib hib
            exact hAcc ib hib


theorem pool_worst_scan_spec :
    ∀ (l : List PoolSlot) (i0 : Nat) (acc : Option (Nat × PoolSlot)),
    (pool_worst_scan l i0 acc = acc ∧
      (∀ s ∈ l, 0 < s.size → ∃ iw, acc = some iw ∧ s.size ≤ (iw.2).size)) ∨
    (∃ t, ∃ ht : t < l.length,
      pool_worst_scan l i0 acc = some (i0 + t, l.get ⟨t, ht⟩) ∧
      0 < (l.get ⟨t, ht⟩).size ∧
      (∀ s ∈ l, s.size ≤ (l.get ⟨t, ht⟩).size) ∧
      (∀ iw, acc = some iw → (iw.2).size < (l.get ⟨t, ht⟩).size)) := by
  intro l
  induction l with
  | nil =>
    intro i0 acc
    left
    refine ⟨rfl, ?_⟩
    intro s2 hs2
    simp at hs2
  | cons s rest ih =>
    intro i0 acc
    cases acc with
    | none =>
      by_cases hq : 0 < s.size
      · have hstep : pool_worst_scan (s :: rest) i0 none =
            pool_worst_scan rest (i0 + 1) (if 0 < s.size then some (i0, s) else none) := rfl
        rw [if_pos hq] at hstep
        rcases ih (i0 + 1) (some (i0, s)) with ⟨hEq, hMin⟩ | ⟨t, ht, hEq, hq2, hMin, hAcc⟩
        · right
          have hget0 : (s :: rest).get ⟨0, by simp⟩ = s := rfl
          refine ⟨0, by simp, ?_, ?_, ?_, ?_⟩
          · rw [hstep, hEq, hget0, Nat.add_zero]
          · rw [hget0]; exact hq
          · intro s2 hs2
            rw [hget0]
            rcases List.mem_cons.mp hs2 with hh | hh
            · rw [hh]
            · by_cases h2q : 0 < s2.size
              · obtain ⟨iw, hiw, hle⟩ := hMin s2 hh h2q
                have hiw2 : (i0, s) = iw := Option.some.inj hiw
                rw [← hiw2] at hle
                exact hle
              · omega
          · intro iw hiw
            exact Option.noConfusion hiw
        · right
          have hlt : t + 1 < (s :: rest).length := by simp; omega
          have hgett : (s :: rest).get ⟨t + 1, hlt⟩ = rest.get ⟨t, ht⟩ := rfl
          refine ⟨t + 1, hlt, ?_, ?_, ?_, ?_⟩
          · rw [hstep, hEq, hgett]
            congr 2
            omega
          · rw [hgett]; exact hq2
          · intro s2 hs2
            rw [hgett]
            rcases List.mem_cons.mp hs2 with hh | hh
            · rw [hh]
              exact Nat.le_of_lt (hAcc (i0, s) rfl)
            · exact hMin s2 hh
          · intro iw hiw
            exact Option.noConfusion hiw
      · have hstep : pool_worst_scan (s :: rest) i0 none =
            pool_worst_scan rest (i0 + 1) (if 0 < s.size then some (i0, s) else none) := rfl
        rw [if_neg hq] at hstep
        rcases ih (i0 + 1) none with ⟨hEq, hMin⟩ | ⟨t, ht, hEq, hq2, hMin, hAcc⟩
        · left
          refine ⟨by rw [hstep, hEq], ?_⟩
          intro s2 hs2 h2q
          rcases List.mem_cons.mp hs2 with hh | hh
          · rw [hh] at h2q
            exact absurd h2q hq
          · obtain ⟨iw, hiw, _⟩ := hMin s2 hh h2q
            exact Option.noConfusion hiw
        · right
          have hlt : t + 1 < (s :: rest).length := by simp; omega
          have hgett : (s :: rest).get ⟨t + 1, hlt⟩ = rest.get ⟨t, ht⟩ := rfl
          refine ⟨t + 1, hlt, ?_, ?_, ?_, ?_⟩
          · rw [hstep, hEq, hgett]
            congr 2
            omega
          · rw [hgett]; exact hq2
          · intro s2 hs2
            rw [hgett]
            rcases List.mem_cons.mp hs2 with hh | hh
            · rw [hh]
              omega
            · exact hMin s2 hh
          · intro iw hiw
            exact Option.noConfusion hiw
    | some wpair =>
      obtain ⟨wi, w⟩ := wpair
      by_cases hq : 0 < s.size ∧ w.size < s.size
      · have hstep : pool_worst_scan (s :: rest) i0 (some (wi, w)) =
            pool_worst_scan rest (i0 + 1)
              (if 0 < s.size ∧ w.size < s.size then some (i0, s) else some (wi, w)) := rfl
        rw [if_pos hq] at hstep
        rcases ih (i0 + 1) (some (i0, s)) with ⟨hEq, hMin⟩ | ⟨t, ht, hEq, hq2, hMin, hAcc⟩
        · right
          have hget0 : (s :: rest).get ⟨0, by simp⟩ = s := rfl
          refine ⟨0, by simp, ?_, ?_, ?_, ?_⟩
          · rw [hstep, hEq, hget0, Nat.add_zero]
          · rw [hget0]; exact hq.1
          · intro s2 hs2
            rw [hget0]
            rcases List.mem_cons.mp hs2 with hh | hh
            · rw [hh]
            · by_cases h2q : 0 < s2.size
              · obtain ⟨iw, hiw, hle⟩ := hMin s2 hh h2q
                have hiw2 : (i0, s) = iw := Option.some.inj hiw
                rw [← hiw2] at hle
                exact hle
              · omega
          · intro iw hiw
            have hiw2 : (wi, w) = iw := Option.some.inj hiw
            rw [← hiw2]
            rw [hget0]
            exact hq.2
        · right
          have hlt : t + 1 < (s :: rest).length := by simp; omega
          have hgett : (s :: rest).get ⟨t + 1, hlt⟩ = rest.get ⟨t, ht⟩ := rfl
          refine ⟨t + 1, hlt, ?_, ?_, ?_, ?_⟩
          · rw [hstep, hEq, hgett]
            congr 2
            omega
          · rw [hgett]; exact hq2
          · intro s2 hs2
            rw [hgett]
            rcases List.mem_cons.mp hs2 with hh | hh
            · rw [hh]
              exact Nat.le_of_lt (hAcc (i0, s) rfl)
            · exact hMin s2 hh
          · intro iw hiw
            have hiw2 : (wi, w) = iw := Option.some.inj hiw
            rw [← hiw2]
            rw [hgett]
            have hlt2 := hAcc (i0, s) rfl
            have hlt3 : w.size < s.size := hq.2
            calc w.size < s.size := hlt3
              _ < (rest.get ⟨t, ht⟩).size := hlt2
      · have hstep : pool_worst_scan (s :: rest) i0 (some (wi, w)) =
            pool_worst_scan rest (i0 + 1)
              (if 0 < s.size ∧ w.size < s.size then some (i0, s) else some (wi, w)) := rfl
        rw [if_neg hq] at hstep
        rcases ih (i0 + 1) (some (wi, w)) with ⟨hEq, hMin⟩ | ⟨t, ht, hEq, hq2, hMin, hAcc⟩
        · left
          refine ⟨by rw [hstep, hEq], ?_⟩
          intro s2 hs2 h2q
          rcases List.mem_cons.mp hs2 with hh | hh
          · refine ⟨(wi, w), rfl, ?_⟩
            show s2.size ≤ w.size
            rw [hh] at h2q ⊢
            have hns : ¬ w.size < s.size := fun hcon => hq ⟨h2q, hcon⟩
            omega
          · exact hMin s2 hh h2q
        · right
          have hlt : t + 1 < (s :: rest).length := by simp; omega
          have hgett : (s :: rest).get ⟨t + 1, hlt⟩ = rest.get ⟨t, ht⟩ := rfl
          refine ⟨t + 1, hlt, ?_, ?_, ?_, ?_⟩
          · rw [hstep, hEq, hgett]
            congr 2
            omega
          · rw [hgett]; exact hq2
          · intro s2 hs2
            rw [hgett]
            rcases List.mem_cons.mp hs2 with hh | hh
            · rw [hh]
              have hw2 : w.size < (rest.get ⟨t, ht⟩).size := hAcc (wi, w) rfl
              by_cases h2q : 0 < s.size
              · have hns : ¬ w.size < s.size := fun hcon => hq ⟨h2q, hcon⟩
                omega
              · omega
            · exact hMin s2 hh
          · intro iw hiw
            exact hAcc iw hiw


theorem pool_best_scan_none_iff (req : Nat) (pool : List PoolSlot) :
    pool_best_scan req pool 0 none = none ↔
      ∀ s ∈ pool, ¬(0 < s.size ∧ req ≤ s.size) := by
  constructor
  · intro h s hs hq
    rcases pool_best_scan_spec req pool 0 none with ⟨hEq, hMin⟩ | ⟨t, ht, hEq, _, _, _, _⟩
    · obtain ⟨ib, hib, _⟩ := hMin s hs hq.1 hq.2
      exact Option.noConfusion hib
    · rw [h] at hEq
      exact Option.noConfusion hEq
  · intro h
    rcases pool_best_scan_spec req pool 0 none with ⟨hEq, _⟩ | ⟨t, ht, hEq, hq2, hq3, _, _⟩
    · exact hEq
    · exact absurd ⟨hq2, hq3⟩ (h _ (List.get_mem pool t ht))

theorem pool_best_scan_some_spec (req : Nat) (pool : List PoolSlot) (i : Nat) (b : PoolSlot) :
    pool_best_scan req pool 0 none = some (i, b) →
    ∃ hi : i < pool.length, pool.get ⟨i, hi⟩ = b ∧ 0 < b.size ∧ req ≤ b.size ∧
      ∀ s ∈ pool, 0 < s.size → req ≤ s.size → b.size ≤ s.size := by
  intro h
  rcases pool_best_scan_spec req pool 0 none with ⟨hEq, _⟩ | ⟨t, ht, hEq, hq2, hq3, hMin, _⟩
  · rw [hEq] at h
    exact Option.noConfusion h
  · rw [hEq] at h
    have hp := Option.some.inj h
    have hti : t = i := by
      have := congrArg Prod.fst hp
      simpa using this
    subst hti
    have hb : pool.get ⟨t, ht⟩ = b := by
      have := congrArg Prod.snd hp
      simpa using this
    rw [hb] at hq2 hq3 hMin
    exact ⟨ht, hb, hq2, hq3, hMin⟩

theorem pool_worst_scan_none_iff (pool : List PoolSlot) :
    pool_worst_scan pool 0 none = none ↔ ∀ s ∈ pool, s.size = 0 := by
  constructor
  · intro h s hs
    rcases pool_worst_scan_spec pool 0 none with ⟨hEq, hMin⟩ | ⟨t, ht, hEq, _, _, _⟩
    · by_cases h2q : 0 < s.size
      · obtain ⟨iw, hiw, _⟩ := hMin s hs h2q
        exact Option.noConfusion hiw
      · omega
    · rw [h] at hEq
      exact Option.noConfusion hEq
  · intro h
    rcases pool_worst_scan_spec pool 0 none with ⟨hEq, _⟩ | ⟨t, ht, hEq, hq2, _, _⟩
    · exact hEq
    · have := h _ (List.get_mem pool t ht)
      omega

theorem pool_worst_scan_some_spec (pool : List PoolSlot) (i : Nat) (w : PoolSlot) :
    pool_worst_scan pool 0 none = some (i, w) →
    ∃ hi : i < pool.length, pool.get ⟨i, hi⟩ = w ∧ 0 < w.size ∧
      ∀ s ∈ pool, s.size ≤ w.size := by
  intro h
  rcases pool_worst_scan_spec pool 0 none with ⟨hEq, _⟩ | ⟨t, ht, hEq, hq2, hMin, _⟩
  · rw [hEq] at h
    exact Option.noConfusion h
  · rw [hEq] at h
    have hp := Option.some.inj h
    have hti : t = i := by
      have := congrArg Prod.fst hp
      simpa using this
    subst hti
    have hb : pool.get ⟨t, ht⟩ = w := by
      have := congrArg Prod.snd hp
      simpa using this
    rw [hb] at hq2 hMin
    exact ⟨ht, hb, hq2, hMin⟩

/-- C5 amended: pool_malloc returns the smallest free pool buffer with size
at least the request and zeroes its slot; when no free buffer fits, the
largest free buffer (if any exists, regardless of whether the pool is full)
is destroyed, and a fresh buffer is allocated with device-local storage OR
the caller flags; with no free buffer at all, nothing is destroyed and the
pool is unchanged. -/
theorem pool_malloc_amended (req : Nat) (pool : List PoolSlot) (flags : MemFlags) :
    (∀ b pool2 destroyed,
      ggml_vk_pool_malloc req pool flags = (PoolAlloc.reused b, pool2, destroyed) →
      0 < b.size ∧ req ≤ b.size ∧
      (∀ s ∈ pool, 0 < s.size → req ≤ s.size → b.size ≤ s.size) ∧
      destroyed = none ∧
      ∃ i, ∃ hi : i < pool.length, pool.get ⟨i, hi⟩ = b ∧ pool2 = pool.set i ⟨0, b.id⟩) ∧
    ((∀ s ∈ pool, ¬(0 < s.size ∧ req ≤ s.size)) →
      (ggml_vk_pool_malloc req pool flags).1 =
        PoolAlloc.fresh req { flags with deviceLocal := true }) ∧
    (∀ w, (ggml_vk_pool_malloc req pool flags).2.2 = some w →
      0 < w.size ∧ (∀ s ∈ pool, s.size ≤ w.size) ∧
      (∀ s ∈ pool, ¬(0 < s.size ∧ req ≤ s.size)) ∧
      ∃ i, ∃ hi : i < pool.length, pool.get ⟨i, hi⟩ = w ∧
        (ggml_vk_pool_malloc req pool flags).2.1 = pool.set i ⟨0, w.id⟩) ∧
    ((∃ s ∈ pool, 0 < s.size) → (∀ s ∈ pool, ¬(0 < s.size ∧ req ≤ s.size)) →
      ∃ w, (ggml_vk_pool_malloc req pool flags).2.2 = some w) ∧
    ((∀ s ∈ pool, s.size = 0) →
      ggml_vk_pool_malloc req pool flags =
        (PoolAlloc.fresh req { flags with deviceLocal := true }, pool, none)) := by
  refine ⟨?_, ?_, ?_, ?_, ?_⟩
  · intro b pool2 destroyed heq
    unfold ggml_vk_pool_malloc at heq
    rcases hbs : pool_best_scan req pool 0 none with _ | ⟨i, b2⟩
    · rw [hbs] at heq
      rcases hws : pool_worst_scan pool 0 none with _ | ⟨j, w2⟩ <;>
        rw [hws] at heq <;> simp at heq
    · rw [hbs] at heq
      simp only [Prod.mk.injEq] at heq
      obtain ⟨hb1, hp2, hd⟩ := heq
      have hb2 : b2 = b := PoolAlloc.reused.inj hb1
      rw [hb2] at hbs
      obtain ⟨hi, hget, hpos, hreq, hmin⟩ := pool_best_scan_some_spec req pool i b hbs
      refine ⟨hpos, hreq, hmin, hd.symm, i, hi, hget, ?_⟩
      rw [← hp2, hb2]
  · intro h
    unfold ggml_vk_pool_malloc
    rw [(pool_best_scan_none_iff req pool).mpr h]
    rcases hws : pool_worst_scan pool 0 none with _ | ⟨j, w2⟩ <;> rfl
  · intro w hw
    unfold ggml_vk_pool_malloc at hw ⊢
    rcases hbs : pool_best_scan req pool 0 none with _ | ⟨i, b2⟩
    · rw [hbs] at hw
      rcases hws : pool_worst_scan pool 0 none with _ | ⟨j, w2⟩
      · rw [hws] at hw
        exact Option.noConfusion hw
      · rw [hws] at hw
        have hw2 : w2 = w := Option.some.inj hw
        rw [hw2] at hws
        obtain ⟨hj, hget, hpos, hmax⟩ := pool_worst_scan_some_spec pool j w hws
        refine ⟨hpos, hmax, (pool_best_scan_none_iff req pool).mp hbs, j, hj, hget, ?_⟩
        show pool.set j ⟨0, w2.id⟩ = pool.set j ⟨0, w.id⟩
        rw [hw2]
    · rw [hbs] at hw
      exact Option.noConfusion hw
  · intro hfree hnofit
    unfold ggml_vk_pool_malloc
    rw [(pool_best_scan_none_iff req pool).mpr hnofit]
    rcases hws : pool_worst_scan pool 0 none with _ | ⟨j, w2⟩
    · obtain ⟨s, hs, hpos⟩ := hfree
      have := (pool_worst_scan_none_iff pool).mp hws s hs
      omega
    · exact ⟨w2, rfl⟩
  · intro hzero
    unfold ggml_vk_pool_malloc
    have hb : pool_best_scan req pool 0 none = none := by
      rw [pool_best_scan_none_iff]
      intro s hs hq
      have := hzero s hs
      omega
    rw [hb, (pool_worst_scan_none_iff pool).mpr hzero]

/-- The buffer pool at startup: MAX_VK_BUFFERS = 256 empty slots. -/
def vk_buffer_pool_start : List PoolSlot := List.replicate 256 ⟨0, 0⟩

set_option maxRecDepth 10000 in
/-- Counterexample to C5 as stated: starting from the empty 256-slot pool,
free one 10-byte buffer and request 20 bytes.  No free buffer fits, so the
code destroys the single free buffer even though 255 of the 256 slots are
empty and nothing is loaned out — the pool is nowhere near full, yet the
largest free buffer is destroyed. -/
theorem pool_malloc_claim_counterexample :
    (ggml_vk_pool_malloc 20 (ggml_vk_pool_free ⟨10, 1⟩ vk_buffer_pool_start)
        ⟨false, false, false, false⟩).2.2 = some ⟨10, 1⟩ ∧
    ((ggml_vk_pool_free ⟨10, 1⟩ vk_buffer_pool_start).filter
      (fun s => decide (0 < s.size))).length = 1 ∧
    (ggml_vk_pool_free ⟨10, 1⟩ vk_buffer_pool_start).length = 256 := by
  decide

/-- Witness for pool_malloc_amended: on the all-empty pool a request
allocates fresh device-local memory, destroys nothing and leaves the pool
unchanged. -/
theorem pool_malloc_amended_witness :
    ggml_vk_pool_malloc 7 vk_buffer_pool_start ⟨false, false, false, false⟩ =
      (PoolAlloc.fresh 7 ⟨true, false, false, false⟩, vk_buffer_pool_start, none) :=
  (pool_malloc_amended 7 vk_buffer_pool_start ⟨false, false, false, false⟩).2.2.2.2 (by
    intro s hs
    rw [List.eq_of_mem_replicate hs])


end GgmlVulkan
